import Mathlib

/-!
Verification development for the reflection-driven dependency-injection
container (container/container.go).

The Go source is shallowly embedded as executable Lean definitions:

* The mutable `container` struct becomes an explicit state record that every
  operation threads through.
* Go `reflect.Type` becomes the inductive `TypeKey`; `reflect.Value` becomes
  the inductive `Value`; Go maps become association lists; Go pointer-heap
  provider nodes become indices into per-container node lists.
* `errors.Errorf`/`fmt.Errorf` sites become constructors of the inductive
  `Err`, each carrying the format arguments of the corresponding Go call;
  `render` produces the formatted message.
* The mutually recursive resolution engine (`call`, `resolve`, the resolver
  strategies) is modelled with a fuel parameter (`mkEngine`): fuel is a
  modelling artifact, consumed on every internal step, so that all
  definitions are structurally recursive and computable.
* Diagnostic-graph bookkeeping (`locationGraphNode`, `typeGraphNode`,
  `addGraphEdge`, `SetColor`) is modelled as a pure `graphState` record; the
  GraphViz node-creation calls are infallible here (their only failure mode
  in Go is in the external rendering library), and logging calls (`logf`,
  `indentLogger`, `dedentLogger`) are omitted as pure I/O.

Definitions whose Go source is not part of the excerpt (the resolver
strategy files, scope.go, the type classifiers, ExtractProviderDescriptor)
are marked "Modelled from the spec:" in their doc comments and follow the
specification's description of them.
-/

/-- Location of a provider: a human-readable identity. `name` models Go's
`Location.Name()` (the function name) and `str` models `Location.String()`
(name plus source position); equality is by value. -/
structure Location where
  name : String
  str : String
deriving DecidableEq, Repr

/-- Modelled from the spec: `Scope` (scope.go is not under src/) is an opaque
object with a string name, equal by identity; pointer identity is rendered
as an allocation counter `id` drawn from the container. -/
structure Scope where
  name : String
  id : Nat
deriving DecidableEq, Repr

/-- Modelled from the spec: `newScope` (scope.go is not under src/) creates a
fresh scope object; freshness of the `id` is supplied by the caller
(`createOrGetScope` passes the container's allocation counter). -/
def newScope (name : String) (id : Nat) : Scope := ⟨name, id⟩

/-- Runtime type identity (Go `reflect.Type`), with just enough structure for
the container: named base types carrying their auto-group / one-per-scope
markers, the distinguished scope interface type, the string type, and slice
and map type formers. -/
inductive TypeKey where
  | base (name : String) (autoGroup onePerScope : Bool)
  | scopeT
  | stringT
  | sliceT (elem : TypeKey)
  | mapT (key elem : TypeKey)
deriving DecidableEq, Repr

/-- The distinguished scope interface type (the Go global `scopeType`). -/
def scopeType : TypeKey := TypeKey.scopeT

/-- The string type (the Go global `stringType`). -/
def stringType : TypeKey := TypeKey.stringT

/-- Modelled from the spec: `isAutoGroupType` (not under src/) tests the
auto-group marker interface; in the model it reads the marker flag of a
named base type. -/
def isAutoGroupType : TypeKey → Bool
  | .base _ a _ => a
  | _ => false

/-- Modelled from the spec: `isOnePerScopeType` (not under src/) tests the
one-per-scope marker interface. -/
def isOnePerScopeType : TypeKey → Bool
  | .base _ _ o => o
  | _ => false

/-- Go `reflect.Type.Elem()` for slice and map types. -/
def TypeKey.elem : TypeKey → TypeKey
  | .mapT _ e => e
  | .sliceT e => e
  | t => t

/-- Rendering of a type, standing in for Go's `%v` on a `reflect.Type`. -/
def TypeKey.render : TypeKey → String
  | .base n _ _ => n
  | .scopeT => "container.Scope"
  | .stringT => "string"
  | .sliceT e => "[]" ++ e.render
  | .mapT k e => "map[" ++ k.render ++ "]" ++ e.render

/-- The source's check `typ.Kind() == reflect.Map && isOnePerScopeType(typ.Elem())
&& typ.Key().Kind() == reflect.String` (container.go line 119). -/
def isForbiddenMapReturn : TypeKey → Bool
  | .mapT key elem => isOnePerScopeType elem && decide (key = TypeKey.stringT)
  | _ => false

/-- The unwrapping at container.go lines 124-127: a slice of an auto-group
element type stands for bulk provision of the element type. -/
def unwrapSliceOfAutoGroup (typ : TypeKey) : TypeKey :=
  match typ with
  | .sliceT e => if isAutoGroupType e then e else typ
  | _ => typ

/-- A runtime value (Go `reflect.Value`): the zero value of a type, a scope
wrapped as a value (`reflect.ValueOf(scope)`), an opaque scalar, a slice, or
a string-keyed map. -/
inductive Value where
  | zero (t : TypeKey)
  | scopeRef (s : Scope)
  | prim (t : TypeKey) (n : Nat)
  | sliceV (t : TypeKey) (elems : List Value)
  | mapV (elemT : TypeKey) (entries : List (String × Value))
deriving Repr

/-- Go `reflect.Value.Type()`. -/
def Value.typeOf : Value → TypeKey
  | .zero t => t
  | .scopeRef _ => scopeType
  | .prim t _ => t
  | .sliceV t _ => .sliceT t
  | .mapV e _ => .mapT stringType e

/-- A frame of the diagnostic resolution stack (container.go lines 24-27). -/
structure resolveFrame where
  loc : Location
  typ : TypeKey
deriving DecidableEq, Repr

/-- The error values the container produces. Each constructor corresponds to
one `errors.Errorf` / `fmt.Errorf` site (in container.go where present,
otherwise modelled from the spec's error-kind table) and carries that site's
format arguments; `Err.render` produces the message text. -/
inductive Err where
  | cyclicDependency (a b : String)
  | duplicateProvisionScoped (typ : TypeKey) (loc : Location) (existing : String)
  | duplicateProvision (typ : TypeKey) (loc : Location) (existing : String)
  | duplicateScopedProvision (typ : TypeKey) (scope : Scope) (loc : Location)
  | onePerScopeMapReturn (typ elemT : TypeKey)
  | onePerScopeOutsideScope (typ : TypeKey) (loc : Location)
  | noScope (caller : Location)
  | cantResolve (typ : TypeKey) (caller : Location) (stack : String)
  | constructorError (loc : Location) (msg : String)
  | invokerOutputs (loc : Location)
  | scopedInvoker
  | groupElemRequested (typ : TypeKey) (caller : Location)
  | onePerScopeElemRequested (typ : TypeKey) (caller : Location)
  | scopeDepNoScope (typ : TypeKey) (caller : Location)
  | internal (msg : String)
deriving DecidableEq, Repr

/-- The formatted message of each error, following the Go format strings
(container.go lines 48, 120-121, 224-225, 284, 299-300, 323, 338; the rest
modelled from the spec's error-kind table). -/
def Err.render : Err → String
  | .cyclicDependency a b => "cyclic dependency: " ++ a ++ " -> " ++ b
  | .duplicateProvisionScoped typ loc existing =>
      "duplicate provision of type " ++ typ.render ++ " by scoped provider " ++
        loc.str ++ "\n\talready provided by " ++ existing
  | .duplicateProvision typ loc existing =>
      "duplicate provision of type " ++ typ.render ++ " by " ++ loc.str ++
        "\n\talready provided by " ++ existing
  | .duplicateScopedProvision typ scope loc =>
      "duplicate provision of type " ++ typ.render ++ " in scope " ++
        scope.name ++ " by " ++ loc.str
  | .onePerScopeMapReturn typ elemT =>
      typ.render ++ " cannot be used as a return type because " ++
        elemT.render ++ " is a one-per-scope type"
  | .onePerScopeOutsideScope typ loc =>
      "cannot provide one-per-scope type " ++ typ.render ++
        " outside of a scope: " ++ loc.str
  | .noScope caller =>
      "trying to resolve <nil> for " ++ caller.str ++ " but not inside of any scope"
  | .cantResolve typ caller stack =>
      "can't resolve type " ++ typ.render ++ " for " ++ caller.str ++ ":\n" ++ stack
  | .constructorError loc msg => "error calling constructor " ++ loc.str ++ ": " ++ msg
  | .invokerOutputs loc =>
      "invoker function cannot have return values other than error: " ++ loc.str
  | .scopedInvoker => "cannot run scoped provider as an invoker"
  | .groupElemRequested typ _ =>
      "auto-group type " ++ typ.render ++ " can only be resolved as a slice"
  | .onePerScopeElemRequested typ _ =>
      "one-per-scope type " ++ typ.render ++ " can only be resolved as a map"
  | .scopeDepNoScope typ _ =>
      "scoped dependency " ++ typ.render ++ " requested outside any scope"
  | .internal msg => "internal error: " ++ msg

/-- Boolean substring test on strings (character-list based), used to state
what an error message does or does not mention. -/
def containsSub (s sub : String) : Bool :=
  (List.range (s.data.length + 1)).any (fun i => sub.data.isPrefixOf (s.data.drop i))

/-- A declared provider input (§3): its type and whether it is optional. -/
structure ProviderInput where
  type : TypeKey
  optional : Bool
deriving DecidableEq, Repr

/-- A declared provider output (§3). -/
structure ProviderOutput where
  type : TypeKey
deriving DecidableEq, Repr

/-- A provider: location, typed inputs/outputs, and the underlying function.
`Fn` consumes resolved input values and produces output values or a user
error (an opaque message). Immutable after extraction (§3). -/
structure ProviderDescriptor where
  Location : Location
  Inputs : List ProviderInput
  Outputs : List ProviderOutput
  Fn : List Value → Except String (List Value)

/-- A simple provider node (§3): invoked at most once, with an optional fixed
scope binding; `cached`/`called` model the memoization of its outputs. The
source constructs these at container.go lines 105-108. -/
structure simpleProvider where
  provider : ProviderDescriptor
  scope : Option Scope
  cached : List Value := []
  called : Bool := false

/-- A scope-dependent provider node, invoked once per scope (container.go
lines 211-215). -/
structure scopeDepProvider where
  provider : ProviderDescriptor
  calledForScope : List Scope
  valueMap : List (Scope × List Value)

/-- The resolver strategies (§3). Strategy implementations are not under
src/, so their payloads follow the spec's data model. Provider nodes are
referenced by index into the container's node lists (standing for Go
pointers); `sliceGroup` and `mapOfOnePerScope` reference the underlying
group / one-per-scope resolver through its element-type registry key, which
models the shared pointer `&sliceGroupResolver{r}` of container.go line 161. -/
inductive resolver where
  | simple (node : Nat) (typ : TypeKey)
  | group (typ sliceType : TypeKey) (nodes : List (Nat × Nat))
  | sliceGroup (elemT : TypeKey)
  | onePerScope (typ mapType : TypeKey) (providers : List (Scope × Nat)) (idxMap : List (Scope × Nat))
  | mapOfOnePerScope (elemT : TypeKey)
  | scopeDep (typ : TypeKey) (idxInValues : Nat) (node : Nat) (valueMap : List (Scope × Value))
  | supply (typ : TypeKey) (value : Value) (loc : Location)

/-- The dynamic result of `addNode` (Go returns `interface{}` holding either
a `*simpleProvider` or a `*scopeDepProvider`, container.go lines 205, 242). -/
inductive NodePtr where
  | simpleP (id : Nat)
  | scopeDepP (id : Nat)
deriving DecidableEq, Repr

/-- A key of the diagnostic graph: a location node (per provider and scope)
or a type node. -/
inductive graphNodeKey where
  | loc (l : Location) (s : Option Scope)
  | typ (t : TypeKey)
deriving DecidableEq, Repr

/-- First-match association-list lookup, modelling a Go map read. -/
def lookupAssoc {α β : Type} [DecidableEq α] : List (α × β) → α → Option β
  | [], _ => none
  | (k, v) :: rest, a => if a = k then some v else lookupAssoc rest a

/-- Association-list update, modelling a Go map write: replaces the first
binding of the key, or appends a new one. -/
def setAssoc {α β : Type} [DecidableEq α] : List (α × β) → α → β → List (α × β)
  | [], a, b => [(a, b)]
  | (k, v) :: rest, a, b => if a = k then (a, b) :: rest else (k, v) :: setAssoc rest a b

/-- Removal of the first occurrence of an element, modelling `delete` on a Go
map represented as a list of present keys. -/
def removeFirst {α : Type} [DecidableEq α] : List α → α → List α
  | [], _ => []
  | x :: xs, a => if x = a then xs else x :: removeFirst xs a

/-- Modelled from the spec: the diagnostic shadow graph (§4.7) — lazily
memoized nodes carrying a color, and dependency/production edges. The
concrete GraphViz plumbing is not under src/; only the abstract bookkeeping
is kept. -/
structure graphState where
  colors : List (graphNodeKey × String)
  edges : List (graphNodeKey × graphNodeKey)
deriving Repr

/-- Lazily create-and-memoize a graph node (color initially neutral). -/
def graphState.ensure (g : graphState) (k : graphNodeKey) : graphState :=
  match lookupAssoc g.colors k with
  | some _ => g
  | none => { g with colors := g.colors ++ [(k, "")] }

/-- Set a graph node's color (Go `node.SetColor`). -/
def graphState.setColor (g : graphState) (k : graphNodeKey) (color : String) : graphState :=
  { g with colors := setAssoc g.colors k color }

/-- Add a graph edge (Go `c.addGraphEdge`). -/
def graphState.addEdge (g : graphState) (a b : graphNodeKey) : graphState :=
  { g with edges := g.edges ++ [(a, b)] }

/-- The container state (container.go lines 12-22): the resolver registry,
the named scopes, the diagnostic resolve stack, the caller stack and caller
set used for cycle detection, plus the node heaps (standing for Go pointers
to provider nodes), the scope-allocation counter, and the diagnostic graph. -/
structure container where
  resolvers : List (TypeKey × resolver)
  scopes : List (String × Scope)
  nextScopeId : Nat
  resolveStack : List resolveFrame
  callerStack : List Location
  callerMap : List Location
  simpleNodes : List simpleProvider
  scopeDepNodes : List scopeDepProvider
  graph : graphState

/-- A fresh container (container.go lines 29-37). -/
def newContainer : container :=
  { resolvers := [], scopes := [], nextScopeId := 0, resolveStack := []
    callerStack := [], callerMap := [], simpleNodes := [], scopeDepNodes := []
    graph := { colors := [], edges := [] } }

/-- Go `c.locationGraphNode(loc, scope)`: lazily created and memoized;
infallible in the model (see the header comment). -/
def container.locationGraphNode (c : container) (loc : Location) (scope : Option Scope) :
    container × graphNodeKey :=
  ({ c with graph := c.graph.ensure (.loc loc scope) }, .loc loc scope)

/-- Go `c.typeGraphNode(typ)`. -/
def container.typeGraphNode (c : container) (typ : TypeKey) : container × graphNodeKey :=
  ({ c with graph := c.graph.ensure (.typ typ) }, .typ typ)

/-- Go `c.addGraphEdge`. -/
def container.addGraphEdge (c : container) (a b : graphNodeKey) : container :=
  { c with graph := c.graph.addEdge a b }

/-- container.go lines 371-373. -/
def markGraphNodeAsUsed (c : container) (k : graphNodeKey) : container :=
  { c with graph := c.graph.setColor k "black" }

/-- container.go lines 375-377. -/
def markGraphNodeAsFailed (c : container) (k : graphNodeKey) : container :=
  { c with graph := c.graph.setColor k "red" }

/-- The scope-input test of the registration loop (container.go lines 87-90):
whether some declared input has the distinguished scope type. -/
def hasScopeParam (ctor : ProviderDescriptor) : Bool :=
  ctor.Inputs.any (fun i => decide (i.type = scopeType))

/-- The graph bookkeeping of the registration input loop (container.go lines
87-98): an edge from each input's type node to the provider's location node. -/
def container.addNodeInputEdges (c : container) (ctorNode : graphNodeKey) :
    List ProviderInput → container
  | [] => c
  | i :: rest =>
    let (c, tn) := c.typeGraphNode i.type
    (c.addGraphEdge tn ctorNode).addNodeInputEdges ctorNode rest

/-- One line per frame of the resolution stack: the body of the loop at
container.go lines 364-367, applied to the frames in the given order. -/
def formatFrames : List resolveFrame → String
  | [] => ""
  | rk :: rest => "\t\t" ++ rk.typ.render ++ " for " ++ rk.loc.str ++ "\n" ++ formatFrames rest

/-- container.go lines 360-369: the human-readable resolution stack. The Go
loop walks `resolveStack` from index `n-1` down to `0`, so the most recently
pushed frame is printed first: this is the reversal. -/
def container.formatResolveStack (c : container) : String :=
  "\twhile resolving:\n" ++ formatFrames c.resolveStack.reverse

/-- Modelled from the spec: `describeLocation` of each resolver strategy (the
strategy files are not under src/) — the human-readable identity of what
already provides a type, used by duplicate-provision errors to name the
existing provider. Node pointers are dereferenced through the container. -/
def resolver.describeLocation (r : resolver) (c : container) : String :=
  match r with
  | .simple nid _ =>
    match c.simpleNodes[nid]? with
    | some n => n.provider.Location.str
    | none => "<invalid node>"
  | .group t _ _ => "auto-group resolver for " ++ t.render
  | .sliceGroup t => "auto-group resolver for " ++ t.render
  | .onePerScope t _ _ _ => "one-per-scope resolver for " ++ t.render
  | .mapOfOnePerScope t => "one-per-scope resolver for " ++ t.render
  | .scopeDep _ _ nid _ =>
    match c.scopeDepNodes[nid]? with
    | some n => n.provider.Location.str
    | none => "<invalid node>"
  | .supply _ _ loc => loc.str

/-- Modelled from the spec (§4.3): `addNode` of each resolver strategy when a
registration finds an existing resolver for an output type. A group resolver
appends the provider to its node list (the slice view delegates to it); a
one-per-scope resolver appends under the provider's bound scope, failing on a
duplicate scope; every other strategy fails with duplicate provision naming
both locations. Returns the updated container (registry) on success. -/
def resolverAddNode (c : container) (vr : resolver) (typ : TypeKey) (nid i : Nat) :
    Except Err container :=
  match vr with
  | .group t st nodes =>
    .ok { c with resolvers := setAssoc c.resolvers typ (.group t st (nodes ++ [(nid, i)])) }
  | .sliceGroup elemT =>
    match lookupAssoc c.resolvers elemT with
    | some (.group t st nodes) =>
      .ok { c with resolvers := setAssoc c.resolvers elemT (.group t st (nodes ++ [(nid, i)])) }
    | _ => .error (.internal "missing group resolver")
  | .onePerScope t mt providers idxMap =>
    match c.simpleNodes[nid]? with
    | none => .error (.internal "invalid node id")
    | some node =>
      match node.scope with
      | none => .error (.onePerScopeOutsideScope t node.provider.Location)
      | some s =>
        if (lookupAssoc providers s).isSome then
          .error (.duplicateScopedProvision t s node.provider.Location)
        else
          .ok { c with resolvers := (setAssoc c.resolvers typ
            (.onePerScope t mt (providers ++ [(s, nid)]) (idxMap ++ [(s, i)]))) }
  | .mapOfOnePerScope _ =>
    match c.simpleNodes[nid]? with
    | none => .error (.internal "invalid node id")
    | some node => .error (.duplicateProvision typ node.provider.Location (vr.describeLocation c))
  | .simple _ _ =>
    match c.simpleNodes[nid]? with
    | none => .error (.internal "invalid node id")
    | some node => .error (.duplicateProvision typ node.provider.Location (vr.describeLocation c))
  | .scopeDep _ _ _ _ =>
    match c.simpleNodes[nid]? with
    | none => .error (.internal "invalid node id")
    | some node => .error (.duplicateProvision typ node.provider.Location (vr.describeLocation c))
  | .supply _ _ _ =>
    match c.simpleNodes[nid]? with
    | none => .error (.internal "invalid node id")
    | some node => .error (.duplicateProvision typ node.provider.Location (vr.describeLocation c))

/-- Modelled from the spec (§4.3): the `addNode` of a freshly created
one-per-scope resolver (container.go line 180 calls `r.addNode(node, i, c)`
on it before installing): the provider is recorded under its bound scope; a
provider of a one-per-scope type with no scope binding is rejected. -/
def onePerScopeFreshAdd (c : container) (typ mapType : TypeKey) (nid i : Nat) :
    Except Err resolver :=
  match c.simpleNodes[nid]? with
  | none => .error (.internal "invalid node id")
  | some node =>
    match node.scope with
    | none => .error (.onePerScopeOutsideScope typ node.provider.Location)
    | some s => .ok (.onePerScope typ mapType [(s, nid)] [(s, i)])

/-- One iteration of the output loop of the non-scoped registration branch
(container.go lines 115-202): the forbidden one-per-scope-map check, the
slice-of-auto-group unwrap, delegation to an existing resolver's `addNode`,
or installation of a fresh group / one-per-scope / simple resolver. `nid` is
the provider node, `i` the output index. -/
def container.addSimpleOutput (c : container) (ctorNode : graphNodeKey) (nid i : Nat)
    (out : ProviderOutput) : container × Except Err Unit :=
  let typ := out.type
  if isForbiddenMapReturn typ then
    (c, .error (.onePerScopeMapReturn typ typ.elem))
  else
    let typ := unwrapSliceOfAutoGroup typ
    match lookupAssoc c.resolvers typ with
    | some vr =>
      match resolverAddNode c vr typ nid i with
      | .error e => (c, .error e)
      | .ok c => (c, .ok ())
    | none =>
      if isAutoGroupType typ then
        let sliceType := TypeKey.sliceT typ
        let c := (c.typeGraphNode sliceType).1
        let r : resolver := .group typ sliceType [(nid, i)]
        let c := { c with resolvers := setAssoc c.resolvers typ r }
        let c := { c with resolvers := setAssoc c.resolvers sliceType (.sliceGroup typ) }
        (c.addGraphEdge ctorNode (.typ sliceType), .ok ())
      else if isOnePerScopeType typ then
        let mapType := TypeKey.mapT TypeKey.stringT typ
        let c := (c.typeGraphNode mapType).1
        match onePerScopeFreshAdd c typ mapType nid i with
        | .error e => (c, .error e)
        | .ok r =>
          let c := { c with resolvers := setAssoc c.resolvers typ r }
          let c := { c with resolvers := setAssoc c.resolvers mapType (.mapOfOnePerScope typ) }
          (c.addGraphEdge ctorNode (.typ mapType), .ok ())
      else
        let c := (c.typeGraphNode typ).1
        let c := { c with resolvers := setAssoc c.resolvers typ (.simple nid typ) }
        (c.addGraphEdge ctorNode (.typ typ), .ok ())

/-- The output loop of the non-scoped registration branch (container.go lines
115-203), iterating `addSimpleOutput` with the running output index. -/
def container.addSimpleOutputs (c : container) (ctorNode : graphNodeKey) (nid i : Nat) :
    List ProviderOutput → container × Except Err Unit
  | [] => (c, .ok ())
  | out :: rest =>
    match c.addSimpleOutput ctorNode nid i out with
    | (c, .error e) => (c, .error e)
    | (c, .ok _) => c.addSimpleOutputs ctorNode nid (i + 1) rest

/-- The output loop of the scoped registration branch (container.go lines
217-240): each output type must be absent from the registry (else duplicate
provision naming both locations), and gets a fresh scope-dep resolver. -/
def container.addScopedOutputs (c : container) (ctorNode : graphNodeKey) (loc : Location)
    (nid i : Nat) : List ProviderOutput → container × Except Err Unit
  | [] => (c, .ok ())
  | out :: rest =>
    let typ := out.type
    match lookupAssoc c.resolvers typ with
    | some existing =>
      (c, .error (.duplicateProvisionScoped typ loc (existing.describeLocation c)))
    | none =>
      let c := { c with resolvers := setAssoc c.resolvers typ (.scopeDep typ i nid []) }
      let c := (c.typeGraphNode typ).1
      let c := c.addGraphEdge ctorNode (.typ typ)
      c.addScopedOutputs ctorNode loc nid (i + 1) rest

/-- The shared prelude of `addNode` (container.go lines 81-98): the provider's
location graph node and the input-type edges. -/
def container.addNodeStart (c : container) (ctor : ProviderDescriptor) (scope : Option Scope) :
    container × graphNodeKey :=
  let c := (c.locationGraphNode ctor.Location scope).1
  (c.addNodeInputEdges (.loc ctor.Location scope) ctor.Inputs, .loc ctor.Location scope)

/-- The prelude of the scoped registration branch (container.go lines
207-215 after `addNodeStart`): allocation of the `scopeDepProvider` node. -/
def container.addNodeScopedStart (c : container) (ctor : ProviderDescriptor) :
    container × graphNodeKey × Nat :=
  let c1 := (c.addNodeStart ctor none).1
  ({ c1 with scopeDepNodes := c1.scopeDepNodes ++ [⟨ctor, [], []⟩] },
    (c.addNodeStart ctor none).2, c1.scopeDepNodes.length)

/-- The prelude of the non-scoped registration branch (container.go lines
101-113 after `addNodeStart`): allocation of the `simpleProvider` node (the
repeated `locationGraphNode` call at line 110 is memoized and hence a
no-op here). -/
def container.addNodeSimpleStart (c : container) (ctor : ProviderDescriptor)
    (scope : Option Scope) : container × graphNodeKey × Nat :=
  let c1 := (c.addNodeStart ctor scope).1
  ({ c1 with simpleNodes := c1.simpleNodes ++ [{ provider := ctor, scope := scope }] },
    (c.addNodeStart ctor scope).2, c1.simpleNodes.length)

/-- container.go lines 80-244: provider registration. A provider with a scope
input and no explicit scope binding becomes a `scopeDepProvider` whose output
types each get a fresh scope-dep resolver; every other provider becomes a
`simpleProvider` whose outputs go through the non-scoped output loop. -/
def container.addNode (c : container) (ctor : ProviderDescriptor) (scope : Option Scope) :
    container × Except Err NodePtr :=
  if scope.isSome || !(hasScopeParam ctor) then
    let st := c.addNodeSimpleStart ctor scope
    match st.1.addSimpleOutputs st.2.1 st.2.2 0 ctor.Outputs with
    | (c, .error e) => (c, .error e)
    | (c, .ok _) => (c, .ok (.simpleP st.2.2))
  else
    let st := c.addNodeScopedStart ctor
    match st.1.addScopedOutputs st.2.1 ctor.Location st.2.2 0 ctor.Outputs with
    | (c, .error e) => (c, .error e)
    | (c, .ok _) => (c, .ok (.scopeDepP st.2.2))

/-- container.go lines 246-272: preregistration of an already-materialized
value. The `duplicateDefinitionError` helper it calls is not under src/; its
message is modelled from the spec as duplicate provision naming both
locations. -/
def container.supply (c : container) (value : Value) (location : Location) :
    container × Except Err Unit :=
  let typ := value.typeOf
  let (c, locNode) := c.locationGraphNode location none
  let c := markGraphNodeAsUsed c locNode
  let (c, tn) := c.typeGraphNode typ
  let c := c.addGraphEdge locNode tn
  match lookupAssoc c.resolvers typ with
  | some existing => (c, .error (.duplicateProvision typ location (existing.describeLocation c)))
  | none => ({ c with resolvers := setAssoc c.resolvers typ (.supply typ value location) }, .ok ())

/-- container.go lines 351-358: return the memoized scope for a name, or
create, memoize and return a fresh one. -/
def container.createOrGetScope (c : container) (name : String) : Scope × container :=
  match lookupAssoc c.scopes name with
  | some s => (s, c)
  | none =>
    let s := newScope name c.nextScopeId
    (s, { c with scopes := setAssoc c.scopes name s, nextScopeId := c.nextScopeId + 1 })

/-- Record a simple provider node's memoized outputs after its constructor
has been called (the mutation of `*simpleProvider` through its pointer). -/
def setSimpleNodeCalled (c : container) (nid : Nat) (vals : List Value) : container :=
  match c.simpleNodes[nid]? with
  | none => c
  | some n =>
    { c with simpleNodes := c.simpleNodes.set nid { n with cached := vals, called := true } }

/-- Record a scope-dep provider node's outputs for one scope (the mutation of
`*scopeDepProvider` through its pointer). -/
def addScopeDepCall (c : container) (nid : Nat) (s : Scope) (vals : List Value) : container :=
  match c.scopeDepNodes[nid]? with
  | none => c
  | some n =>
    { c with scopeDepNodes := (c.scopeDepNodes.set nid
      { n with calledForScope := s :: n.calledForScope, valueMap := setAssoc n.valueMap s vals }) }

/-- The mutually recursive resolution operations, gathered in one record so
that the recursion can be indexed by fuel (see the header comment): the
engine-level `resolve` and `call` of container.go, the input loop of `call`,
and the spec-modelled resolver strategies. -/
structure Engine where
  resolve : container → ProviderInput → Option Scope → Location → container × Except Err Value
  call : container → ProviderDescriptor → Option Scope → container × Except Err (List Value)
  resolveInputs : container → List ProviderInput → Option Scope → Location → container × Except Err (List Value)
  resolverResolve : container → resolver → Option Scope → Location → container × Except Err Value
  resolveValues : container → Nat → container × Except Err (List Value)
  groupLoop : container → TypeKey → List (Nat × Nat) → List Value → container × Except Err Value
  onePerScopeLoop : container → TypeKey → List (Scope × Nat) → List (Scope × Nat) → List (String × Value) → container × Except Err Value

/-- The exhausted engine: every operation fails, leaving the state unchanged. -/
def outOfFuelEngine : Engine where
  resolve := fun c _ _ _ => (c, .error (.internal "out of fuel"))
  call := fun c _ _ => (c, .error (.internal "out of fuel"))
  resolveInputs := fun c _ _ _ => (c, .error (.internal "out of fuel"))
  resolverResolve := fun c _ _ _ => (c, .error (.internal "out of fuel"))
  resolveValues := fun c _ => (c, .error (.internal "out of fuel"))
  groupLoop := fun c _ _ _ => (c, .error (.internal "out of fuel"))
  onePerScopeLoop := fun c _ _ _ _ => (c, .error (.internal "out of fuel"))

/-- The state of `call` after its diagnostic-graph bookkeeping
(container.go lines 41-45): the provider's location node exists and is
marked failed (it is re-marked used only on success). -/
def container.callGraphMarked (c : container) (ctor : ProviderDescriptor) (scope : Option Scope) :
    container :=
  let (c, gn) := c.locationGraphNode ctor.Location scope
  markGraphNodeAsFailed c gn

/-- The state of `call` on entry to its input loop (container.go lines
51-52): graph bookkeeping done, the location inserted into `callerMap` and
pushed onto `callerStack`. -/
def container.callEntryState (c : container) (ctor : ProviderDescriptor) (scope : Option Scope) :
    container :=
  let c := c.callGraphMarked ctor scope
  { c with callerMap := ctor.Location :: c.callerMap
           callerStack := c.callerStack ++ [ctor.Location] }

/-- container.go lines 274-314, one level of the recursion (`prev` resolves
the nested calls): push a frame on `resolveStack`; serve the distinguished
scope type directly from the current scope (error if none); absent resolver:
zero value if the input is optional, otherwise an unresolvable-dependency
error carrying the formatted stack; otherwise delegate to the resolver, and
on success mark the type node used and pop the last stack entry.
`resolveEntryState` is the state after the entry bookkeeping of `resolve`
(container.go lines 275-280): the frame pushed and the type node ensured. -/
def container.resolveEntryState (c : container) (inp : ProviderInput) (caller : Location) :
    container :=
  let c := { c with resolveStack := c.resolveStack ++ [resolveFrame.mk caller inp.type] }
  (c.typeGraphNode inp.type).1

def resolveStep (prev : Engine) (c : container) (inp : ProviderInput) (scope : Option Scope)
    (caller : Location) : container × Except Err Value :=
  let tn : graphNodeKey := .typ inp.type
  let cr := c.resolveEntryState inp caller
  if inp.type = scopeType then
    match scope with
    | none => (cr, .error (.noScope caller))
    | some s => (markGraphNodeAsUsed cr tn, .ok (.scopeRef s))
  else
    match lookupAssoc cr.resolvers inp.type with
    | none =>
      if inp.optional then (cr, .ok (.zero inp.type))
      else
        let cr := markGraphNodeAsFailed cr tn
        (cr, .error (.cantResolve inp.type caller cr.formatResolveStack))
    | some vr =>
      match prev.resolverResolve cr vr scope caller with
      | (c, .error e) => (markGraphNodeAsFailed c tn, .error e)
      | (c, .ok res) =>
        let c := markGraphNodeAsUsed c tn
        let c := { c with resolveStack := c.resolveStack.dropLast }
        (c, .ok res)

/-- container.go lines 39-78, one level of the recursion: mark the location
node failed, check the caller set for a cycle, push the location on the
caller set and stack, resolve every input (aborting on the first error
without popping), pop the location, call the underlying function (wrapping
its error with the location), and mark the node used on success. -/
def callStep (prev : Engine) (c : container) (ctor : ProviderDescriptor) (scope : Option Scope) :
    container × Except Err (List Value) :=
  let loc := ctor.Location
  let gn : graphNodeKey := .loc loc scope
  let cg := c.callGraphMarked ctor scope
  if loc ∈ cg.callerMap then
    (cg, .error (.cyclicDependency loc.name loc.name))
  else
    match prev.resolveInputs (c.callEntryState ctor scope) ctor.Inputs scope loc with
    | (c, .error e) => (c, .error e)
    | (c, .ok inVals) =>
      let c := { c with callerMap := removeFirst c.callerMap loc
                        callerStack := c.callerStack.dropLast }
      match ctor.Fn inVals with
      | .error errMsg => (c, .error (.constructorError loc errMsg))
      | .ok out => (markGraphNodeAsUsed c gn, .ok out)

/-- The input loop of `call` (container.go lines 56-63). -/
def resolveInputsStep (prev : Engine) (c : container) (ins : List ProviderInput)
    (scope : Option Scope) (loc : Location) : container × Except Err (List Value) :=
  match ins with
  | [] => (c, .ok [])
  | i :: rest =>
    match prev.resolve c i scope loc with
    | (c, .error e) => (c, .error e)
    | (c, .ok v) =>
      match prev.resolveInputs c rest scope loc with
      | (c, .error e) => (c, .error e)
      | (c, .ok vs) => (c, .ok (v :: vs))

/-- Modelled from the spec (§4.4): the per-strategy `resolve` methods (their
files are not under src/). A supply resolver returns its value; a simple
resolver memoizes its provider's outputs and returns the one whose declared
type matches; group and one-per-scope resolvers reject requests for the bare
element type; the slice view calls each registered provider once and
concatenates, spreading slice-valued outputs; the map view invokes each
per-scope provider and builds the name-to-value map; a scope-dep resolver
requires an active scope and invokes its provider once per scope, caching
outputs per scope. -/
def resolverResolveStep (prev : Engine) (c : container) (vr : resolver) (scope : Option Scope)
    (caller : Location) : container × Except Err Value :=
  match vr with
  | .supply _ v _ => (c, .ok v)
  | .simple nid typ =>
    match prev.resolveValues c nid with
    | (c, .error e) => (c, .error e)
    | (c, .ok vals) =>
      match c.simpleNodes[nid]? with
      | none => (c, .error (.internal "invalid node id"))
      | some node =>
        let idx := node.provider.Outputs.findIdx (fun o => decide (o.type = typ))
        match vals[idx]? with
        | some v => (c, .ok v)
        | none => (c, .error (.internal "output index out of range"))
  | .group typ _ _ => (c, .error (.groupElemRequested typ caller))
  | .sliceGroup elemT =>
    match lookupAssoc c.resolvers elemT with
    | some (.group typ _ nodes) => prev.groupLoop c typ nodes []
    | _ => (c, .error (.internal "missing group resolver"))
  | .onePerScope typ _ _ _ => (c, .error (.onePerScopeElemRequested typ caller))
  | .mapOfOnePerScope elemT =>
    match lookupAssoc c.resolvers elemT with
    | some (.onePerScope typ _ providers idxMap) =>
      prev.onePerScopeLoop c typ providers idxMap []
    | _ => (c, .error (.internal "missing one-per-scope resolver"))
  | .scopeDep typ idx nid _ =>
    match scope with
    | none => (c, .error (.scopeDepNoScope typ caller))
    | some s =>
      match c.scopeDepNodes[nid]? with
      | none => (c, .error (.internal "invalid node id"))
      | some node =>
        if s ∈ node.calledForScope then
          match lookupAssoc node.valueMap s with
          | some vals =>
            match vals[idx]? with
            | some v => (c, .ok v)
            | none => (c, .error (.internal "output index out of range"))
          | none => (c, .error (.internal "missing cached value"))
        else
          match prev.call c node.provider (some s) with
          | (c, .error e) => (c, .error e)
          | (c, .ok out) =>
            let c := addScopeDepCall c nid s out
            match out[idx]? with
            | some v => (c, .ok v)
            | none => (c, .error (.internal "output index out of range"))

/-- Modelled from the spec: `simpleProvider.resolveValues` (not under src/),
the at-most-once invocation of a simple provider through `call` with its
bound scope, memoizing all outputs. -/
def resolveValuesStep (prev : Engine) (c : container) (nid : Nat) :
    container × Except Err (List Value) :=
  match c.simpleNodes[nid]? with
  | none => (c, .error (.internal "invalid node id"))
  | some node =>
    if node.called then (c, .ok node.cached)
    else
      match prev.call c node.provider node.scope with
      | (c, .error e) => (c, .error e)
      | (c, .ok vals) => (setSimpleNodeCalled c nid vals, .ok vals)

/-- Modelled from the spec (§4.4): the iteration inside the slice-group
strategy — call each provider once, in registration order, spreading
slice-valued outputs into the accumulator. -/
def groupLoopStep (prev : Engine) (c : container) (typ : TypeKey) (nodes : List (Nat × Nat))
    (acc : List Value) : container × Except Err Value :=
  match nodes with
  | [] => (c, .ok (.sliceV typ acc))
  | (nid, i) :: rest =>
    match prev.resolveValues c nid with
    | (c, .error e) => (c, .error e)
    | (c, .ok vals) =>
      match vals[i]? with
      | none => (c, .error (.internal "output index out of range"))
      | some v =>
        let acc := acc ++ (match v with | .sliceV _ elems => elems | v => [v])
        prev.groupLoop c typ rest acc

/-- Modelled from the spec (§4.4): the iteration inside the one-per-scope map
strategy — invoke each per-scope provider with its bound scope and build the
name-to-value map. -/
def onePerScopeLoopStep (prev : Engine) (c : container) (typ : TypeKey)
    (providers : List (Scope × Nat)) (idxMap : List (Scope × Nat))
    (acc : List (String × Value)) : container × Except Err Value :=
  match providers with
  | [] => (c, .ok (.mapV typ acc))
  | (s, nid) :: rest =>
    match prev.resolveValues c nid with
    | (c, .error e) => (c, .error e)
    | (c, .ok vals) =>
      match lookupAssoc idxMap s with
      | none => (c, .error (.internal "missing index for scope"))
      | some idx =>
        match vals[idx]? with
        | none => (c, .error (.internal "output index out of range"))
        | some v => prev.onePerScopeLoop c typ rest idxMap (acc ++ [(s.name, v)])

/-- The resolution engine at a given fuel: each operation runs one step,
delegating nested work to the engine one fuel level down. -/
def mkEngine : Nat → Engine
  | 0 => outOfFuelEngine
  | fuel + 1 =>
    let prev := mkEngine fuel
    { resolve := resolveStep prev
      call := callStep prev
      resolveInputs := resolveInputsStep prev
      resolverResolve := resolverResolveStep prev
      resolveValues := resolveValuesStep prev
      groupLoop := groupLoopStep prev
      onePerScopeLoop := onePerScopeLoopStep prev }

/-- container.go lines 274-314 (`(c *container) resolve`), at a given fuel. -/
def container.resolve (fuel : Nat) (c : container) (inp : ProviderInput)
    (scope : Option Scope) (caller : Location) : container × Except Err Value :=
  (mkEngine fuel).resolve c inp scope caller

/-- container.go lines 39-78 (`(c *container) call`), at a given fuel. -/
def container.call (fuel : Nat) (c : container) (ctor : ProviderDescriptor)
    (scope : Option Scope) : container × Except Err (List Value) :=
  (mkEngine fuel).call c ctor scope

/-- container.go lines 316-349: `run`. The invoker is taken as an
already-extracted descriptor (`ExtractProviderDescriptor` is not under src/;
per §4.1 it converts a function value one-to-one, peeling a trailing error
output, so the descriptor itself is the faithful interface). A non-empty
output list is rejected; the invoker is registered with no scope binding;
if registration produced anything but a `*simpleProvider`, run fails with
the scoped-invoker error, otherwise the node's values are resolved. -/
def container.run (fuel : Nat) (c : container) (rctr : ProviderDescriptor) :
    container × Option Err :=
  if rctr.Outputs.length > 0 then (c, some (.invokerOutputs rctr.Location))
  else
    match c.addNode rctr none with
    | (c, .error e) => (c, some e)
    | (c, .ok ptr) =>
      match ptr with
      | .scopeDepP _ => (c, some .scopedInvoker)
      | .simpleP nid =>
        match (mkEngine fuel).resolveValues c nid with
        | (c, .error e) => (c, some e)
        | (c, .ok _) => (c, none)

theorem lookupAssoc_set_self {α β : Type} [DecidableEq α] (l : List (α × β)) (k : α) (v : β) :
    lookupAssoc (setAssoc l k v) k = some v := by
  induction l with
  | nil => simp [setAssoc, lookupAssoc]
  | cons p rest ih =>
    obtain ⟨k1, v1⟩ := p
    by_cases h : k = k1
    · subst h; simp [setAssoc, lookupAssoc]
    · simp [setAssoc, lookupAssoc, h, ih]

theorem lookupAssoc_set_ne {α β : Type} [DecidableEq α] (l : List (α × β)) (k k' : α) (v : β)
    (h : k' ≠ k) : lookupAssoc (setAssoc l k v) k' = lookupAssoc l k' := by
  induction l with
  | nil => simp [setAssoc, lookupAssoc, h]
  | cons p rest ih =>
    obtain ⟨k1, v1⟩ := p
    by_cases h1 : k = k1
    · subst h1; simp [setAssoc, lookupAssoc, h]
    · simp only [setAssoc, if_neg h1]
      by_cases h2 : k' = k1
      · subst h2; simp [lookupAssoc]
      · simp [lookupAssoc, h2, ih]

theorem removeFirst_cons_self {α : Type} [DecidableEq α] (a : α) (l : List α) :
    removeFirst (a :: l) a = l := by
  simp [removeFirst]

theorem mem_removeFirst_of_ne {α : Type} [DecidableEq α] {b a : α} {l : List α}
    (hb : b ∈ l) (hne : b ≠ a) : b ∈ removeFirst l a := by
  induction l with
  | nil => cases hb
  | cons x xs ih =>
    by_cases hx : x = a
    · subst hx
      simp only [removeFirst, if_pos rfl]
      rcases List.mem_cons.mp hb with h | h
      · exact absurd h hne
      · exact h
    · simp only [removeFirst, if_neg hx]
      rcases List.mem_cons.mp hb with h | h
      · exact h ▸ List.mem_cons_self x _
      · exact List.mem_cons_of_mem x (ih h)

theorem setSimpleNodeCalled_callerMap (c : container) (nid : Nat) (vals : List Value) :
    (setSimpleNodeCalled c nid vals).callerMap = c.callerMap := by
  unfold setSimpleNodeCalled; split <;> rfl

theorem setSimpleNodeCalled_callerStack (c : container) (nid : Nat) (vals : List Value) :
    (setSimpleNodeCalled c nid vals).callerStack = c.callerStack := by
  unfold setSimpleNodeCalled; split <;> rfl

theorem addScopeDepCall_callerMap (c : container) (nid : Nat) (s : Scope) (vals : List Value) :
    (addScopeDepCall c nid s vals).callerMap = c.callerMap := by
  unfold addScopeDepCall; split <;> rfl

theorem addScopeDepCall_callerStack (c : container) (nid : Nat) (s : Scope) (vals : List Value) :
    (addScopeDepCall c nid s vals).callerStack = c.callerStack := by
  unfold addScopeDepCall; split <;> rfl

/-- The caller-state invariant of one engine operation: membership of
`callerMap` and `callerStack` is never lost, and a successful result
restores both exactly. -/
structure callerOK {α : Type} (c : container) (p : container × Except Err α) : Prop where
  mapMono : ∀ l, l ∈ c.callerMap → l ∈ p.1.callerMap
  stackMono : ∀ l, l ∈ c.callerStack → l ∈ p.1.callerStack
  okPreserves : ∀ v, p.2 = Except.ok v → p.1.callerMap = c.callerMap ∧ p.1.callerStack = c.callerStack

theorem callerOK_same {α : Type} (c : container) (c' : container) (r : Except Err α)
    (hm : c'.callerMap = c.callerMap) (hs : c'.callerStack = c.callerStack) :
    callerOK c (c', r) :=
  ⟨fun _ hl => hm ▸ hl, fun _ hl => hs ▸ hl, fun _ _ => ⟨hm, hs⟩⟩

theorem callerOK_congr {α β : Type} {c c1 : container} {p : container × Except Err α}
    {q : container × Except Err β}
    (h : callerOK c1 p)
    (hm : c1.callerMap = c.callerMap) (hs : c1.callerStack = c.callerStack)
    (hqm : q.1.callerMap = p.1.callerMap) (hqs : q.1.callerStack = p.1.callerStack)
    (hok : ∀ v, q.2 = Except.ok v → ∃ w, p.2 = Except.ok w) : callerOK c q := by
  refine ⟨fun l hl => ?_, fun l hl => ?_, fun v hv => ?_⟩
  · rw [hqm]; exact h.mapMono l (hm ▸ hl)
  · rw [hqs]; exact h.stackMono l (hs ▸ hl)
  · obtain ⟨w, hw⟩ := hok v hv
    obtain ⟨h1, h2⟩ := h.okPreserves w hw
    exact ⟨by rw [hqm, h1, hm], by rw [hqs, h2, hs]⟩

/-- The caller-state invariant for every operation of an engine. -/
structure EnginePres (e : Engine) : Prop where
  resolvePres : ∀ c inp scope caller, callerOK c (e.resolve c inp scope caller)
  callPres : ∀ c ctor scope, callerOK c (e.call c ctor scope)
  inputsPres : ∀ c ins scope loc, callerOK c (e.resolveInputs c ins scope loc)
  rrPres : ∀ c vr scope caller, callerOK c (e.resolverResolve c vr scope caller)
  rvPres : ∀ c nid, callerOK c (e.resolveValues c nid)
  glPres : ∀ c typ nodes acc, callerOK c (e.groupLoop c typ nodes acc)
  oplPres : ∀ c typ providers idxMap acc, callerOK c (e.onePerScopeLoop c typ providers idxMap acc)

theorem outOfFuelEngine_pres : EnginePres outOfFuelEngine := by
  constructor <;> intros <;> exact callerOK_same _ _ _ rfl rfl

theorem callerOK_trans {α β : Type} {c : container} {p : container × Except Err α}
    {q : container × Except Err β} (h1 : callerOK c p) (h2 : callerOK p.1 q)
    (hok : ∀ v, q.2 = Except.ok v → ∃ w, p.2 = Except.ok w) : callerOK c q := by
  refine ⟨fun l hl => h2.mapMono l (h1.mapMono l hl),
          fun l hl => h2.stackMono l (h1.stackMono l hl),
          fun v hv => ?_⟩
  obtain ⟨w, hw⟩ := hok v hv
  obtain ⟨hm1, hs1⟩ := h1.okPreserves w hw
  obtain ⟨hm2, hs2⟩ := h2.okPreserves v hv
  exact ⟨by rw [hm2, hm1], by rw [hs2, hs1]⟩

theorem resolveStep_pres (prev : Engine) (hprev : EnginePres prev) (c : container)
    (inp : ProviderInput) (scope : Option Scope) (caller : Location) :
    callerOK c (resolveStep prev c inp scope caller) := by
  simp only [resolveStep]
  by_cases hscope : inp.type = scopeType
  · rw [if_pos hscope]
    cases scope <;> exact callerOK_same _ _ _ rfl rfl
  · rw [if_neg hscope]
    split
    · split
      · exact callerOK_same _ _ _ rfl rfl
      · exact callerOK_same _ _ _ rfl rfl
    · rename_i vr heq
      split
      · rename_i c3 e heq2
        have h := hprev.rrPres (c.resolveEntryState inp caller) vr scope caller
        rw [heq2] at h
        exact callerOK_congr h rfl rfl rfl rfl (fun v hv => nomatch hv)
      · rename_i c3 res heq2
        have h := hprev.rrPres (c.resolveEntryState inp caller) vr scope caller
        rw [heq2] at h
        exact callerOK_congr h rfl rfl rfl rfl (fun v _ => ⟨res, rfl⟩)

theorem callStep_pres (prev : Engine) (hprev : EnginePres prev) (c : container)
    (ctor : ProviderDescriptor) (scope : Option Scope) :
    callerOK c (callStep prev c ctor scope) := by
  simp only [callStep]
  split
  · exact callerOK_same _ _ _ rfl rfl
  · split
    · rename_i c2 e heq
      have h := hprev.inputsPres (c.callEntryState ctor scope) ctor.Inputs scope ctor.Location
      rw [heq] at h
      exact ⟨fun l hl => h.mapMono l (List.mem_cons_of_mem _ hl),
             fun l hl => h.stackMono l (List.mem_append_left _ hl),
             fun v hv => nomatch hv⟩
    · rename_i c2 inVals heq
      have h := hprev.inputsPres (c.callEntryState ctor scope) ctor.Inputs scope ctor.Location
      rw [heq] at h
      obtain ⟨hm2, hs2⟩ := h.okPreserves inVals rfl
      have hmap : removeFirst c2.callerMap ctor.Location = c.callerMap := by
        rw [hm2]
        exact removeFirst_cons_self _ _
      have hstack : c2.callerStack.dropLast = c.callerStack := by
        rw [hs2]
        exact List.dropLast_concat
      split
      · exact callerOK_same _ _ _ hmap hstack
      · exact callerOK_same _ _ _ hmap hstack

theorem resolveInputsStep_pres (prev : Engine) (hprev : EnginePres prev) (c : container)
    (ins : List ProviderInput) (scope : Option Scope) (loc : Location) :
    callerOK c (resolveInputsStep prev c ins scope loc) := by
  cases ins with
  | nil => exact callerOK_same _ _ _ rfl rfl
  | cons i rest =>
    simp only [resolveInputsStep]
    split
    · rename_i c2 e heq
      have h1 := hprev.resolvePres c i scope loc
      rw [heq] at h1
      exact callerOK_congr h1 rfl rfl rfl rfl (fun v hv => nomatch hv)
    · rename_i c2 v heq
      have h1 := hprev.resolvePres c i scope loc
      rw [heq] at h1
      split
      · rename_i c3 e heq2
        have h2 := hprev.inputsPres c2 rest scope loc
        rw [heq2] at h2
        exact callerOK_trans h1 h2 (fun v hv => nomatch hv)
      · rename_i c3 vs heq2
        have h2 := hprev.inputsPres c2 rest scope loc
        rw [heq2] at h2
        exact callerOK_congr (callerOK_trans h1 h2 (fun _ _ => ⟨v, rfl⟩)) rfl rfl rfl rfl
          (fun _ _ => ⟨vs, rfl⟩)

theorem resolveValuesStep_pres (prev : Engine) (hprev : EnginePres prev) (c : container)
    (nid : Nat) : callerOK c (resolveValuesStep prev c nid) := by
  simp only [resolveValuesStep]
  split
  · exact callerOK_same _ _ _ rfl rfl
  · rename_i node hnode
    split
    · exact callerOK_same _ _ _ rfl rfl
    · split
      · rename_i c2 e heq
        have h := hprev.callPres c node.provider node.scope
        rw [heq] at h
        exact h
      · rename_i c2 vals heq
        have h := hprev.callPres c node.provider node.scope
        rw [heq] at h
        exact callerOK_congr h rfl rfl (setSimpleNodeCalled_callerMap _ _ _)
          (setSimpleNodeCalled_callerStack _ _ _) (fun _ _ => ⟨vals, rfl⟩)

theorem resolverResolveStep_pres (prev : Engine) (hprev : EnginePres prev) (c : container)
    (vr : resolver) (scope : Option Scope) (caller : Location) :
    callerOK c (resolverResolveStep prev c vr scope caller) := by
  cases vr with
  | supply t v l => exact callerOK_same _ _ _ rfl rfl
  | group t st nodes => exact callerOK_same _ _ _ rfl rfl
  | onePerScope t mt ps im => exact callerOK_same _ _ _ rfl rfl
  | sliceGroup elemT =>
    simp only [resolverResolveStep]
    split
    · exact hprev.glPres _ _ _ _
    · exact callerOK_same _ _ _ rfl rfl
  | mapOfOnePerScope elemT =>
    simp only [resolverResolveStep]
    split
    · exact hprev.oplPres _ _ _ _ _
    · exact callerOK_same _ _ _ rfl rfl
  | simple nid typ =>
    simp only [resolverResolveStep]
    split
    · rename_i c2 e heq
      have h := hprev.rvPres c nid
      rw [heq] at h
      exact callerOK_congr h rfl rfl rfl rfl (fun v hv => nomatch hv)
    · rename_i c2 vals heq
      have h := hprev.rvPres c nid
      rw [heq] at h
      split
      · exact callerOK_congr h rfl rfl rfl rfl (fun v hv => nomatch hv)
      · split
        · exact callerOK_congr h rfl rfl rfl rfl (fun _ _ => ⟨vals, rfl⟩)
        · exact callerOK_congr h rfl rfl rfl rfl (fun v hv => nomatch hv)
  | scopeDep typ idx nid vm =>
    cases scope with
    | none => exact callerOK_same _ _ _ rfl rfl
    | some s =>
      simp only [resolverResolveStep]
      split
      · exact callerOK_same _ _ _ rfl rfl
      · rename_i node hnode
        split
        · split
          · split
            · exact callerOK_same _ _ _ rfl rfl
            · exact callerOK_same _ _ _ rfl rfl
          · exact callerOK_same _ _ _ rfl rfl
        · split
          · rename_i c2 e heq
            have h := hprev.callPres c node.provider (some s)
            rw [heq] at h
            exact callerOK_congr h rfl rfl rfl rfl (fun v hv => nomatch hv)
          · rename_i c2 out heq
            have h := hprev.callPres c node.provider (some s)
            rw [heq] at h
            split
            · exact callerOK_congr h rfl rfl (addScopeDepCall_callerMap _ _ _ _)
                (addScopeDepCall_callerStack _ _ _ _) (fun _ _ => ⟨out, rfl⟩)
            · exact callerOK_congr h rfl rfl (addScopeDepCall_callerMap _ _ _ _)
                (addScopeDepCall_callerStack _ _ _ _) (fun v hv => nomatch hv)

theorem groupLoopStep_pres (prev : Engine) (hprev : EnginePres prev) (c : container)
    (typ : TypeKey) (nodes : List (Nat × Nat)) (acc : List Value) :
    callerOK c (groupLoopStep prev c typ nodes acc) := by
  cases nodes with
  | nil => exact callerOK_same _ _ _ rfl rfl
  | cons p rest =>
    obtain ⟨nid, i⟩ := p
    simp only [groupLoopStep]
    split
    · rename_i c2 e heq
      have h := hprev.rvPres c nid
      rw [heq] at h
      exact callerOK_congr h rfl rfl rfl rfl (fun v hv => nomatch hv)
    · rename_i c2 vals heq
      have h := hprev.rvPres c nid
      rw [heq] at h
      split
      · exact callerOK_congr h rfl rfl rfl rfl (fun v hv => nomatch hv)
      · exact callerOK_trans h (hprev.glPres _ _ _ _) (fun _ _ => ⟨vals, rfl⟩)

theorem onePerScopeLoopStep_pres (prev : Engine) (hprev : EnginePres prev) (c : container)
    (typ : TypeKey) (providers : List (Scope × Nat)) (idxMap : List (Scope × Nat))
    (acc : List (String × Value)) :
    callerOK c (onePerScopeLoopStep prev c typ providers idxMap acc) := by
  cases providers with
  | nil => exact callerOK_same _ _ _ rfl rfl
  | cons p rest =>
    obtain ⟨s, nid⟩ := p
    simp only [onePerScopeLoopStep]
    split
    · rename_i c2 e heq
      have h := hprev.rvPres c nid
      rw [heq] at h
      exact callerOK_congr h rfl rfl rfl rfl (fun v hv => nomatch hv)
    · rename_i c2 vals heq
      have h := hprev.rvPres c nid
      rw [heq] at h
      split
      · exact callerOK_congr h rfl rfl rfl rfl (fun v hv => nomatch hv)
      · split
        · exact callerOK_congr h rfl rfl rfl rfl (fun v hv => nomatch hv)
        · exact callerOK_trans h (hprev.oplPres _ _ _ _ _) (fun _ _ => ⟨vals, rfl⟩)

/-- Every engine level satisfies the caller-state invariant: membership of
`callerMap` / `callerStack` is never lost by any operation, and a successful
operation restores both to their incoming state. -/
theorem mkEngine_pres : ∀ fuel, EnginePres (mkEngine fuel)
  | 0 => outOfFuelEngine_pres
  | fuel + 1 =>
    let ih := mkEngine_pres fuel
    ⟨resolveStep_pres _ ih, callStep_pres _ ih, resolveInputsStep_pres _ ih,
     resolverResolveStep_pres _ ih, resolveValuesStep_pres _ ih,
     groupLoopStep_pres _ ih, onePerScopeLoopStep_pres _ ih⟩

theorem resolveEntryState_resolvers (c : container) (inp : ProviderInput) (caller : Location) :
    (c.resolveEntryState inp caller).resolvers = c.resolvers := rfl

theorem resolveEntryState_resolveStack (c : container) (inp : ProviderInput) (caller : Location) :
    (c.resolveEntryState inp caller).resolveStack =
      c.resolveStack ++ [resolveFrame.mk caller inp.type] := rfl

theorem callEntryState_callerMap (c : container) (ctor : ProviderDescriptor)
    (scope : Option Scope) :
    (c.callEntryState ctor scope).callerMap = ctor.Location :: c.callerMap := rfl

theorem callEntryState_callerStack (c : container) (ctor : ProviderDescriptor)
    (scope : Option Scope) :
    (c.callEntryState ctor scope).callerStack = c.callerStack ++ [ctor.Location] := rfl

theorem callGraphMarked_callerMap (c : container) (ctor : ProviderDescriptor)
    (scope : Option Scope) :
    (c.callGraphMarked ctor scope).callerMap = c.callerMap := rfl

theorem resolve_succ (fuel : Nat) (c : container) (inp : ProviderInput) (scope : Option Scope)
    (caller : Location) :
    container.resolve (fuel + 1) c inp scope caller = resolveStep (mkEngine fuel) c inp scope caller :=
  rfl

theorem call_succ (fuel : Nat) (c : container) (ctor : ProviderDescriptor) (scope : Option Scope) :
    container.call (fuel + 1) c ctor scope = callStep (mkEngine fuel) c ctor scope :=
  rfl

/-- C9: two lookups of the same scope name return the identical scope object:
the first call on a name not yet memoized creates and memoizes a fresh scope
(distinct, under the id-freshness invariant, from every scope already
memoized), and every later call with the same name returns exactly that scope
and leaves the container unchanged. -/
theorem C9_createOrGetScope_idempotent (c : container) (n : String) :
    (∀ s1 c1, container.createOrGetScope c n = (s1, c1) →
      container.createOrGetScope c1 n = (s1, c1)) ∧
    (lookupAssoc c.scopes n = none →
      container.createOrGetScope c n =
        (newScope n c.nextScopeId,
          { c with scopes := setAssoc c.scopes n (newScope n c.nextScopeId)
                   nextScopeId := c.nextScopeId + 1 }) ∧
      ∀ m s', lookupAssoc c.scopes m = some s' → s'.id < c.nextScopeId →
        s' ≠ newScope n c.nextScopeId) := by
  constructor
  · intro s1 c1 h
    cases hlk : lookupAssoc c.scopes n with
    | some s =>
      simp only [container.createOrGetScope, hlk] at h
      injection h with h1 h2
      subst h1
      subst h2
      simp [container.createOrGetScope, hlk]
    | none =>
      simp only [container.createOrGetScope, hlk] at h
      injection h with h1 h2
      subst h1
      subst h2
      simp [container.createOrGetScope, lookupAssoc_set_self]
  · intro hnone
    constructor
    · simp [container.createOrGetScope, hnone]
    · intro m s' hm hlt heq
      rw [heq] at hlt
      exact absurd hlt (lt_irrefl _)

theorem C9_witness :
    container.createOrGetScope (container.createOrGetScope newContainer "a").2 "a" =
      ((container.createOrGetScope newContainer "a").1,
        (container.createOrGetScope newContainer "a").2) :=
  (C9_createOrGetScope_idempotent newContainer "a").1 _ _ rfl

/-- C8: an input of the distinguished scope type is served by the engine
itself: with an active scope the current scope is returned wrapped as a
value, with no active scope resolution fails with the scope-missing error,
and in both cases the outcome is the same whatever the resolver registry
contains. -/
theorem C8_scope_input (fuel : Nat) (c : container) (scope : Option Scope) (caller : Location)
    (opt : Bool) :
    (∀ s, scope = some s →
      ∃ c', container.resolve (fuel + 1) c ⟨scopeType, opt⟩ scope caller =
        (c', .ok (.scopeRef s))) ∧
    (scope = none →
      ∃ c', container.resolve (fuel + 1) c ⟨scopeType, opt⟩ scope caller =
        (c', .error (.noScope caller))) ∧
    (∀ rs, (container.resolve (fuel + 1) { c with resolvers := rs } ⟨scopeType, opt⟩ scope caller).2 =
      (container.resolve (fuel + 1) c ⟨scopeType, opt⟩ scope caller).2) := by
  refine ⟨?_, ?_, ?_⟩
  · rintro s rfl
    exact ⟨_, rfl⟩
  · rintro rfl
    exact ⟨_, rfl⟩
  · intro rs
    cases scope <;> rfl

theorem C8_witness :
    (∃ c', container.resolve 3 newContainer ⟨scopeType, false⟩ (some (newScope "w" 0))
      ⟨"inv", "inv (main.go:5)"⟩ = (c', .ok (.scopeRef (newScope "w" 0)))) ∧
    (∃ c', container.resolve 3 newContainer ⟨scopeType, false⟩ none
      ⟨"inv", "inv (main.go:5)"⟩ = (c', .error (.noScope ⟨"inv", "inv (main.go:5)"⟩))) :=
  ⟨(C8_scope_input 2 newContainer (some (newScope "w" 0)) ⟨"inv", "inv (main.go:5)"⟩ false).1 _ rfl,
   (C8_scope_input 2 newContainer none ⟨"inv", "inv (main.go:5)"⟩ false).2.1 rfl⟩

/-- C2 (amended): `resolve` pushes the frame `(caller, input type)` on entry,
but pops it only on the path where a registered resolver is consulted and
succeeds (shown here for a supply resolver); on the scope-type success path
and on the missing-optional zero-value path `resolve` returns with the frame
still on `resolveStack`, so the stack is not empty again after such a
top-level resolution. -/
theorem C2_resolveStack_behavior (fuel : Nat) (c : container) (inp : ProviderInput)
    (scope : Option Scope) (caller : Location) :
    (∀ s, inp.type = scopeType → scope = some s →
      ∃ c', container.resolve (fuel + 1) c inp scope caller = (c', .ok (.scopeRef s)) ∧
        c'.resolveStack = c.resolveStack ++ [resolveFrame.mk caller inp.type]) ∧
    (inp.type ≠ scopeType → lookupAssoc c.resolvers inp.type = none → inp.optional = true →
      ∃ c', container.resolve (fuel + 1) c inp scope caller = (c', .ok (.zero inp.type)) ∧
        c'.resolveStack = c.resolveStack ++ [resolveFrame.mk caller inp.type]) ∧
    (∀ t v l, inp.type ≠ scopeType → lookupAssoc c.resolvers inp.type = some (.supply t v l) →
      ∃ c', container.resolve (fuel + 2) c inp scope caller = (c', .ok v) ∧
        c'.resolveStack = c.resolveStack) := by
  refine ⟨?_, ?_, ?_⟩
  · intro s hty hsc
    subst hsc
    rw [resolve_succ]
    simp only [resolveStep]
    rw [if_pos hty]
    exact ⟨_, rfl, rfl⟩
  · intro hty hlk hopt
    rw [resolve_succ]
    simp only [resolveStep]
    rw [if_neg hty, resolveEntryState_resolvers, hlk]
    simp only [hopt]
    exact ⟨_, rfl, rfl⟩
  · intro t v l hty hlk
    rw [resolve_succ]
    simp only [resolveStep]
    rw [if_neg hty, resolveEntryState_resolvers, hlk]
    simp only [mkEngine, resolverResolveStep]
    refine ⟨_, rfl, ?_⟩
    show (c.resolveStack ++ [resolveFrame.mk caller inp.type]).dropLast = c.resolveStack
    exact List.dropLast_concat

/-- C2 counterexample: a successful top-level resolution of a scope-typed
input returns a value with no error, yet leaves its frame on `resolveStack`
(the stack is `[frame]`, not `[]`), refuting the claim that the frame is
popped whenever `resolve` returns a value without error. -/
theorem C2_counterexample :
    (container.resolve 3 newContainer ⟨scopeType, false⟩ (some (newScope "a" 0))
      ⟨"inv", "inv (main.go:5)"⟩).2 = .ok (.scopeRef (newScope "a" 0)) ∧
    (container.resolve 3 newContainer ⟨scopeType, false⟩ (some (newScope "a" 0))
      ⟨"inv", "inv (main.go:5)"⟩).1.resolveStack =
      [resolveFrame.mk ⟨"inv", "inv (main.go:5)"⟩ scopeType] :=
  ⟨rfl, rfl⟩

def exSupplyLoc : Location := ⟨"supplyR", "supplyR (main.go:7)"⟩

def exTyR : TypeKey := TypeKey.base "R" false false

def exSupplyCont : container :=
  { newContainer with resolvers := [(exTyR, .supply exTyR (.prim exTyR 7) exSupplyLoc)] }

theorem C2_witness :
    ∃ c', container.resolve 4 exSupplyCont ⟨exTyR, false⟩ none ⟨"inv", "inv (main.go:5)"⟩ =
      (c', .ok (.prim exTyR 7)) ∧ c'.resolveStack = exSupplyCont.resolveStack :=
  (C2_resolveStack_behavior 2 exSupplyCont ⟨exTyR, false⟩ none ⟨"inv", "inv (main.go:5)"⟩).2.2
    exTyR (.prim exTyR 7) exSupplyLoc (by decide) rfl

/-- C7: an input whose type has no registered resolver is served the zero
value of its type when the input is optional; when it is required, `resolve`
fails with the unresolvable-dependency error carrying the formatted
resolution stack, and that formatted stack lists the just-pushed (most
recent) frame first, before the lines of all earlier frames. -/
theorem C7_missing_resolver (fuel : Nat) (c : container) (inp : ProviderInput)
    (scope : Option Scope) (caller : Location)
    (hty : inp.type ≠ scopeType) (hlk : lookupAssoc c.resolvers inp.type = none) :
    (inp.optional = true →
      ∃ c', container.resolve (fuel + 1) c inp scope caller = (c', .ok (.zero inp.type))) ∧
    (inp.optional = false →
      (∃ c', container.resolve (fuel + 1) c inp scope caller =
        (c', .error (.cantResolve inp.type caller
          (container.formatResolveStack (c.resolveEntryState inp caller))))) ∧
      container.formatResolveStack (c.resolveEntryState inp caller) =
        "\twhile resolving:\n" ++
          formatFrames (resolveFrame.mk caller inp.type :: c.resolveStack.reverse)) := by
  constructor
  · intro hopt
    rw [resolve_succ]
    simp only [resolveStep]
    rw [if_neg hty, resolveEntryState_resolvers, hlk]
    simp only [hopt]
    exact ⟨_, rfl⟩
  · intro hopt
    constructor
    · rw [resolve_succ]
      simp only [resolveStep]
      rw [if_neg hty, resolveEntryState_resolvers, hlk]
      simp only [hopt]
      exact ⟨_, rfl⟩
    · simp only [container.formatResolveStack, resolveEntryState_resolveStack,
        List.reverse_append, List.reverse_cons, List.reverse_nil, List.nil_append,
        List.singleton_append]

def exTyQ : TypeKey := TypeKey.base "Q" false false

theorem C7_witness :
    (∃ c', container.resolve 3 newContainer ⟨exTyQ, true⟩ none ⟨"inv", "inv (main.go:5)"⟩ =
      (c', .ok (.zero exTyQ))) ∧
    (∃ c', container.resolve 3 newContainer ⟨exTyQ, false⟩ none ⟨"inv", "inv (main.go:5)"⟩ =
      (c', .error (.cantResolve exTyQ ⟨"inv", "inv (main.go:5)"⟩
        (container.formatResolveStack
          (newContainer.resolveEntryState ⟨exTyQ, false⟩ ⟨"inv", "inv (main.go:5)"⟩))))) :=
  ⟨(C7_missing_resolver 2 newContainer ⟨exTyQ, true⟩ none ⟨"inv", "inv (main.go:5)"⟩
      (by decide) rfl).1 rfl,
   ((C7_missing_resolver 2 newContainer ⟨exTyQ, false⟩ none ⟨"inv", "inv (main.go:5)"⟩
      (by decide) rfl).2 rfl).1⟩

/-- C3 (amended): invoking a provider whose location is already in
`callerMap` fails with the cyclic-dependency error, but the error message
names only the repeated location twice ("loc -> loc"); it does not include
the other location names along the cycle chain. -/
theorem C3_cyclic_error (fuel : Nat) (c : container) (ctor : ProviderDescriptor)
    (scope : Option Scope) (h : ctor.Location ∈ c.callerMap) :
    container.call (fuel + 1) c ctor scope =
      (c.callGraphMarked ctor scope,
        .error (.cyclicDependency ctor.Location.name ctor.Location.name)) ∧
    Err.render (.cyclicDependency ctor.Location.name ctor.Location.name) =
      "cyclic dependency: " ++ ctor.Location.name ++ " -> " ++ ctor.Location.name := by
  constructor
  · rw [call_succ]
    simp only [callStep, callGraphMarked_callerMap]
    rw [if_pos h]
  · rfl

def locA : Location := ⟨"provA", "provA (file.go:1)"⟩

def locB : Location := ⟨"provB", "provB (file.go:2)"⟩

def exTyA : TypeKey := TypeKey.base "A" false false

def exTyB : TypeKey := TypeKey.base "B" false false

/-- A provider of A that needs B: one half of a two-provider cycle. -/
def provA : ProviderDescriptor :=
  { Location := locA, Inputs := [⟨exTyB, false⟩], Outputs := [⟨exTyA⟩]
    Fn := fun _ => .ok [.prim exTyA 1] }

/-- A provider of B that needs A: the other half of the cycle. -/
def provB : ProviderDescriptor :=
  { Location := locB, Inputs := [⟨exTyA, false⟩], Outputs := [⟨exTyB⟩]
    Fn := fun _ => .ok [.prim exTyB 2] }

/-- A container with the A-B cycle registered through simple resolvers. -/
def cCyc : container :=
  { newContainer with
    resolvers := [(exTyA, .simple 0 exTyA), (exTyB, .simple 1 exTyB)]
    simpleNodes := [{ provider := provA, scope := none }, { provider := provB, scope := none }] }

/-- C3 counterexample: in the cycle provA -> provB -> provA, the cycle is
detected with both provA and provB on the caller stack, yet the error
message is "cyclic dependency: provA -> provA" and does not mention provB,
refuting the claim that the message includes the location names along the
chain of the cycle. -/
theorem C3_counterexample :
    (container.call 20 cCyc provA none).2 = .error (.cyclicDependency "provA" "provA") ∧
    (container.call 20 cCyc provA none).1.callerStack = [locA, locB] ∧
    locB.name = "provB" ∧
    containsSub (Err.render (.cyclicDependency "provA" "provA")) "provB" = false :=
  ⟨rfl, rfl, rfl, by decide⟩

def cHasA : container := { newContainer with callerMap := [locA] }

theorem C3_witness :
    container.call 4 cHasA provA none =
      (cHasA.callGraphMarked provA none,
        .error (.cyclicDependency locA.name locA.name)) :=
  (C3_cyclic_error 3 cHasA provA none (List.mem_singleton.mpr rfl)).1

theorem addNodeInputEdges_graphOnly :
    ∀ (ins : List ProviderInput) (c : container) (k : graphNodeKey),
      ∃ g, c.addNodeInputEdges k ins = { c with graph := g } := by
  intro ins
  induction ins with
  | nil => exact fun c k => ⟨c.graph, rfl⟩
  | cons i rest ih =>
    intro c k
    simp only [container.addNodeInputEdges, container.typeGraphNode]
    obtain ⟨g, hg⟩ := ih
      ({ c with graph := c.graph.ensure (.typ i.type) }.addGraphEdge (.typ i.type) k) k
    exact ⟨g, hg⟩

theorem addNodeScopedStart_spec (c : container) (ctor : ProviderDescriptor) :
    ∃ g, c.addNodeScopedStart ctor =
      ({ c with graph := g, scopeDepNodes := c.scopeDepNodes ++ [⟨ctor, [], []⟩] },
        graphNodeKey.loc ctor.Location none, c.scopeDepNodes.length) := by
  obtain ⟨g, hg⟩ := addNodeInputEdges_graphOnly ctor.Inputs
    ((c.locationGraphNode ctor.Location none).1) (.loc ctor.Location none)
  refine ⟨g, ?_⟩
  simp only [container.addNodeScopedStart, container.addNodeStart]
  rw [hg]
  rfl

theorem addNodeSimpleStart_spec (c : container) (ctor : ProviderDescriptor)
    (scope : Option Scope) :
    ∃ g, c.addNodeSimpleStart ctor scope =
      ({ c with graph := g, simpleNodes := c.simpleNodes ++ [{ provider := ctor, scope := scope }] },
        graphNodeKey.loc ctor.Location scope, c.simpleNodes.length) := by
  obtain ⟨g, hg⟩ := addNodeInputEdges_graphOnly ctor.Inputs
    ((c.locationGraphNode ctor.Location scope).1) (.loc ctor.Location scope)
  refine ⟨g, ?_⟩
  simp only [container.addNodeSimpleStart, container.addNodeStart]
  rw [hg]
  rfl

/-- C10: an invoker (no outputs) whose declared inputs include the scope
type is registered by `run` with no scope binding, which produces a
scope-dependent provider node rather than a simple one, so `run` fails with
the "cannot run scoped provider as an invoker" error; the returned state is
exactly the registration prelude — the caller stack and resolve stack are
untouched, so none of the invoker's inputs was resolved. -/
theorem C10_scoped_invoker (fuel : Nat) (c : container) (rctr : ProviderDescriptor)
    (hout : rctr.Outputs = []) (hscope : hasScopeParam rctr = true) :
    container.addNode c rctr none =
      ((c.addNodeScopedStart rctr).1, .ok (.scopeDepP c.scopeDepNodes.length)) ∧
    container.run fuel c rctr = ((c.addNodeScopedStart rctr).1, some Err.scopedInvoker) ∧
    ((c.addNodeScopedStart rctr).1).resolveStack = c.resolveStack ∧
    ((c.addNodeScopedStart rctr).1).callerStack = c.callerStack ∧
    Err.render Err.scopedInvoker = "cannot run scoped provider as an invoker" := by
  obtain ⟨g, hst⟩ := addNodeScopedStart_spec c rctr
  have h22 : (c.addNodeScopedStart rctr).2.2 = c.scopeDepNodes.length := by rw [hst]
  have h1rs : (c.addNodeScopedStart rctr).1.resolveStack = c.resolveStack := by rw [hst]
  have h1cs : (c.addNodeScopedStart rctr).1.callerStack = c.callerStack := by rw [hst]
  have haddNode : container.addNode c rctr none =
      ((c.addNodeScopedStart rctr).1, .ok (.scopeDepP c.scopeDepNodes.length)) := by
    simp only [container.addNode, hscope, Option.isSome_none, Bool.not_true, Bool.or_false]
    simp only [Bool.false_eq_true, if_false, hout, container.addScopedOutputs]
    rw [h22]
  refine ⟨haddNode, ?_, h1rs, h1cs, rfl⟩
  simp only [container.run, hout, List.length_nil, gt_iff_lt, lt_irrefl, if_false, haddNode]

/-- An invoker function that declares a scope input and has no outputs. -/
def exInvoker : ProviderDescriptor :=
  { Location := ⟨"inv", "inv (main.go:9)"⟩, Inputs := [⟨scopeType, false⟩], Outputs := []
    Fn := fun _ => .ok [] }

theorem C10_witness :
    container.run 5 newContainer exInvoker =
      ((newContainer.addNodeScopedStart exInvoker).1, some Err.scopedInvoker) :=
  (C10_scoped_invoker 5 newContainer exInvoker rfl rfl).2.1

/-- C1 (amended): when a provider's location passes the cycle check, `call`
removes it from `callerMap` and `callerStack` before returning on the
success path and on the constructor-failure path; but when resolving one of
the provider's inputs fails, `call` propagates the error immediately and
returns with the location still present in both `callerMap` and
`callerStack`. -/
theorem C1_caller_cleanup (fuel : Nat) (c : container) (ctor : ProviderDescriptor)
    (scope : Option Scope) (hnotin : ctor.Location ∉ c.callerMap) :
    (∀ c' out, container.call fuel c ctor scope = (c', .ok out) →
      c'.callerMap = c.callerMap ∧ c'.callerStack = c.callerStack ∧
      ctor.Location ∉ c'.callerMap) ∧
    (∀ c2 inVals msg,
      (mkEngine fuel).resolveInputs (c.callEntryState ctor scope) ctor.Inputs scope
        ctor.Location = (c2, .ok inVals) →
      ctor.Fn inVals = .error msg →
      ∃ c3, container.call (fuel + 1) c ctor scope =
          (c3, .error (.constructorError ctor.Location msg)) ∧
        c3.callerMap = c.callerMap ∧ c3.callerStack = c.callerStack) ∧
    (∀ c2 e,
      (mkEngine fuel).resolveInputs (c.callEntryState ctor scope) ctor.Inputs scope
        ctor.Location = (c2, .error e) →
      container.call (fuel + 1) c ctor scope = (c2, .error e) ∧
      ctor.Location ∈ c2.callerMap ∧ ctor.Location ∈ c2.callerStack) := by
  refine ⟨?_, ?_, ?_⟩
  · intro c' out h
    have hOK := (mkEngine_pres fuel).callPres c ctor scope
    rw [show container.call fuel c ctor scope = (mkEngine fuel).call c ctor scope from rfl] at h
    rw [h] at hOK
    obtain ⟨hm, hs⟩ := hOK.okPreserves out rfl
    exact ⟨hm, hs, by rw [hm]; exact hnotin⟩
  · intro c2 inVals msg hin hfn
    have hOKin := (mkEngine_pres fuel).inputsPres (c.callEntryState ctor scope) ctor.Inputs
      scope ctor.Location
    rw [hin] at hOKin
    obtain ⟨hm2, hs2⟩ := hOKin.okPreserves inVals rfl
    refine ⟨{ c2 with callerMap := removeFirst c2.callerMap ctor.Location
                      callerStack := c2.callerStack.dropLast }, ?_, ?_, ?_⟩
    · rw [call_succ]
      simp only [callStep, callGraphMarked_callerMap]
      rw [if_neg hnotin, hin]
      dsimp only
      rw [hfn]
    · show removeFirst c2.callerMap ctor.Location = c.callerMap
      rw [hm2, callEntryState_callerMap]
      exact removeFirst_cons_self _ _
    · show c2.callerStack.dropLast = c.callerStack
      rw [hs2, callEntryState_callerStack]
      exact List.dropLast_concat
  · intro c2 e hin
    have hOKin := (mkEngine_pres fuel).inputsPres (c.callEntryState ctor scope) ctor.Inputs
      scope ctor.Location
    rw [hin] at hOKin
    refine ⟨?_, ?_, ?_⟩
    · rw [call_succ]
      simp only [callStep, callGraphMarked_callerMap]
      rw [if_neg hnotin, hin]
    · exact hOKin.mapMono ctor.Location
        (by rw [callEntryState_callerMap]; exact List.mem_cons_self _ _)
    · exact hOKin.stackMono ctor.Location
        (by rw [callEntryState_callerStack]
            exact List.mem_append_right _ (List.mem_singleton.mpr rfl))

/-- A provider with a single required input of an unregistered type. -/
def provNeedsQ : ProviderDescriptor :=
  { Location := ⟨"provP", "provP (x.go:1)"⟩, Inputs := [⟨exTyQ, false⟩]
    Outputs := [⟨TypeKey.base "P" false false⟩], Fn := fun _ => .ok [] }

/-- C1 counterexample: resolving the single input of provP fails (no
resolver for Q), and `call` returns with provP's location still in both
`callerMap` and `callerStack` — the location is not removed on the
input-resolution error path. -/
theorem C1_counterexample :
    provNeedsQ.Location ∉ newContainer.callerMap ∧
    (∃ e, (container.call 5 newContainer provNeedsQ none).2 = .error e) ∧
    (container.call 5 newContainer provNeedsQ none).1.callerMap = [provNeedsQ.Location] ∧
    (container.call 5 newContainer provNeedsQ none).1.callerStack = [provNeedsQ.Location] :=
  ⟨by decide, ⟨_, rfl⟩, rfl, rfl⟩

/-- A provider with no inputs whose constructor succeeds. -/
def provOk : ProviderDescriptor :=
  { Location := ⟨"provOk", "provOk (x.go:2)"⟩, Inputs := []
    Outputs := [⟨exTyR⟩], Fn := fun _ => .ok [.prim exTyR 1] }

theorem C1_witness :
    provOk.Location ∉ newContainer.callerMap ∧
    (container.call 5 newContainer provOk none).1.callerMap = newContainer.callerMap ∧
    (container.call 5 newContainer provOk none).1.callerStack = newContainer.callerStack := by
  have h := (C1_caller_cleanup 5 newContainer provOk none (by decide)).1
    (container.call 5 newContainer provOk none).1 [Value.prim exTyR 1] rfl
  exact ⟨by decide, h.1, h.2.1⟩

theorem describeLocation_nodes_eq (r : resolver) (c c' : container)
    (h1 : c'.simpleNodes = c.simpleNodes) (h2 : c'.scopeDepNodes = c.scopeDepNodes) :
    r.describeLocation c' = r.describeLocation c := by
  cases r <;> simp [resolver.describeLocation, h1, h2]

theorem addScopedOutputs_ok :
    ∀ (outs : List ProviderOutput) (c : container) (ctorNode : graphNodeKey) (loc : Location)
      (nid i : Nat),
      (∀ o ∈ outs, lookupAssoc c.resolvers o.type = none) →
      (outs.map (fun o => o.type)).Nodup →
      ∃ c', c.addScopedOutputs ctorNode loc nid i outs = (c', .ok ()) ∧
        c'.simpleNodes = c.simpleNodes ∧ c'.scopeDepNodes = c.scopeDepNodes ∧
        (∀ j (hj : j < outs.length),
          lookupAssoc c'.resolvers ((outs.get ⟨j, hj⟩).type) =
            some (.scopeDep ((outs.get ⟨j, hj⟩).type) (i + j) nid [])) ∧
        (∀ t, t ∉ outs.map (fun o => o.type) →
          lookupAssoc c'.resolvers t = lookupAssoc c.resolvers t) := by
  intro outs
  induction outs with
  | nil =>
    intro c ctorNode loc nid i _ _
    exact ⟨c, rfl, rfl, rfl, fun j hj => absurd hj (by simp), fun t _ => rfl⟩
  | cons out rest ih =>
    intro c ctorNode loc nid i hfresh hnodup
    have h0 : lookupAssoc c.resolvers out.type = none := hfresh out (List.mem_cons_self _ _)
    simp only [List.map_cons, List.nodup_cons, List.mem_map] at hnodup
    obtain ⟨hnotin, hnodup'⟩ := hnodup
    set c1 : container :=
      ({ c with resolvers := setAssoc c.resolvers out.type (.scopeDep out.type i nid []) } :
        container).typeGraphNode out.type |>.1.addGraphEdge ctorNode (.typ out.type) with hc1
    have hres1 : c1.resolvers = setAssoc c.resolvers out.type (.scopeDep out.type i nid []) := rfl
    have hfresh' : ∀ o ∈ rest, lookupAssoc c1.resolvers o.type = none := by
      intro o ho
      rw [hres1, lookupAssoc_set_ne]
      · exact hfresh o (List.mem_cons_of_mem _ ho)
      · intro heq
        exact hnotin ⟨o, ho, heq⟩
    have hnodup2 : (rest.map (fun o => o.type)).Nodup := by
      simpa using hnodup'
    obtain ⟨c', hrun, hsn, hsd, hidx, hother⟩ := ih c1 ctorNode loc nid (i + 1) hfresh' hnodup2
    refine ⟨c', ?_, hsn, hsd, ?_, ?_⟩
    · simp only [container.addScopedOutputs, h0]
      exact hrun
    · intro j hj
      match j with
      | 0 =>
        have : ((out :: rest).get ⟨0, hj⟩) = out := rfl
        rw [this]
        have hnr : out.type ∉ rest.map (fun o => o.type) := by
          intro hmem
          rcases List.mem_map.mp hmem with ⟨o, ho, heq⟩
          exact hnotin ⟨o, ho, heq⟩
        rw [hother out.type hnr, hres1, lookupAssoc_set_self, Nat.add_zero]
      | j + 1 =>
        have hj' : j < rest.length := by
          simpa [Nat.succ_lt_succ_iff] using hj
        have hget : ((out :: rest).get ⟨j + 1, hj⟩) = rest.get ⟨j, hj'⟩ := rfl
        rw [hget]
        have harith : i + 1 + j = i + (j + 1) := by omega
        have hj2 := hidx j hj'
        rw [harith] at hj2
        exact hj2
    · intro t ht
      simp only [List.map_cons, List.mem_cons, not_or] at ht
      obtain ⟨ht1, ht2⟩ := ht
      rw [hother t ht2, hres1, lookupAssoc_set_ne _ _ _ _ ht1]

theorem addScopedOutputs_err :
    ∀ (pre : List ProviderOutput) (c : container) (ctorNode : graphNodeKey) (loc : Location)
      (nid i : Nat) (out : ProviderOutput) (post : List ProviderOutput) (ex : resolver),
      (∀ o ∈ pre, lookupAssoc c.resolvers o.type = none) →
      (pre.map (fun o => o.type)).Nodup →
      out.type ∉ pre.map (fun o => o.type) →
      lookupAssoc c.resolvers out.type = some ex →
      ∃ c', c.addScopedOutputs ctorNode loc nid i (pre ++ out :: post) =
        (c', .error (.duplicateProvisionScoped out.type loc (ex.describeLocation c))) := by
  intro pre
  induction pre with
  | nil =>
    intro c ctorNode loc nid i out post ex _ _ _ hex
    refine ⟨c, ?_⟩
    simp only [List.nil_append, container.addScopedOutputs, hex]
  | cons p pre ih =>
    intro c ctorNode loc nid i out post ex hfresh hnodup hnotin hex
    have h0 : lookupAssoc c.resolvers p.type = none := hfresh p (List.mem_cons_self _ _)
    simp only [List.map_cons, List.mem_cons, not_or] at hnotin
    obtain ⟨hne, hnotin'⟩ := hnotin
    simp only [List.map_cons, List.nodup_cons, List.mem_map] at hnodup
    obtain ⟨hnp, hnodup'⟩ := hnodup
    obtain ⟨c', hrun⟩ := ih
      (({ c with resolvers := setAssoc c.resolvers p.type (.scopeDep p.type i nid []) } :
        container).typeGraphNode p.type |>.1.addGraphEdge ctorNode (.typ p.type))
      ctorNode loc nid (i + 1) out post ex
      (by intro o ho
          show lookupAssoc (setAssoc c.resolvers p.type (.scopeDep p.type i nid [])) o.type = none
          rw [lookupAssoc_set_ne]
          · exact hfresh o (List.mem_cons_of_mem _ ho)
          · intro heq
            exact hnp ⟨o, ho, heq⟩)
      hnodup' hnotin'
      (by show lookupAssoc (setAssoc c.resolvers p.type (.scopeDep p.type i nid []))
            out.type = some ex
          rw [lookupAssoc_set_ne _ _ _ _ hne]
          exact hex)
    refine ⟨c', ?_⟩
    simp only [List.cons_append, container.addScopedOutputs, h0]
    have hdesc := describeLocation_nodes_eq ex c
      (({ c with resolvers := setAssoc c.resolvers p.type (.scopeDep p.type i nid []) } :
        container).typeGraphNode p.type |>.1.addGraphEdge ctorNode (.typ p.type)) rfl rfl
    rw [hdesc] at hrun
    exact hrun

/-- C4: registering a provider that declares a scope input with no explicit
scope binding walks its output types in order: an output type that already
has any resolver aborts registration with a duplicate-provision error naming
both the new provider's location and the existing resolver's described
location; when every output type is fresh (and the outputs are distinct), a
`ScopeDepResolver` is installed for each output type, carrying its output
index and the new scope-dep node. -/
theorem C4_scoped_provider_registration (c : container) (ctor : ProviderDescriptor)
    (hscope : hasScopeParam ctor = true) :
    ((∀ o ∈ ctor.Outputs, lookupAssoc c.resolvers o.type = none) →
      (ctor.Outputs.map (fun o => o.type)).Nodup →
      ∃ c', container.addNode c ctor none = (c', .ok (.scopeDepP c.scopeDepNodes.length)) ∧
        ∀ j (hj : j < ctor.Outputs.length),
          lookupAssoc c'.resolvers ((ctor.Outputs.get ⟨j, hj⟩).type) =
            some (.scopeDep ((ctor.Outputs.get ⟨j, hj⟩).type) j c.scopeDepNodes.length [])) ∧
    (∀ pre out post ex, ctor.Outputs = pre ++ out :: post →
      (∀ o ∈ pre, lookupAssoc c.resolvers o.type = none) →
      (pre.map (fun o => o.type)).Nodup →
      out.type ∉ pre.map (fun o => o.type) →
      lookupAssoc c.resolvers out.type = some ex →
      ∃ c', container.addNode c ctor none =
        (c', .error (.duplicateProvisionScoped out.type ctor.Location
          (ex.describeLocation (c.addNodeScopedStart ctor).1)))) := by
  obtain ⟨g, hst⟩ := addNodeScopedStart_spec c ctor
  have h1 : (c.addNodeScopedStart ctor).1.resolvers = c.resolvers := by rw [hst]
  have h22 : (c.addNodeScopedStart ctor).2.2 = c.scopeDepNodes.length := by rw [hst]
  constructor
  · intro hfresh hnodup
    have hfresh' : ∀ o ∈ ctor.Outputs,
        lookupAssoc (c.addNodeScopedStart ctor).1.resolvers o.type = none := by
      intro o ho
      rw [h1]
      exact hfresh o ho
    obtain ⟨c', hrun, hsn, hsd, hidx, hother⟩ := addScopedOutputs_ok ctor.Outputs
      (c.addNodeScopedStart ctor).1 (c.addNodeScopedStart ctor).2.1 ctor.Location
      (c.addNodeScopedStart ctor).2.2 0 hfresh' hnodup
    refine ⟨c', ?_, ?_⟩
    · simp only [container.addNode, hscope, Option.isSome_none, Bool.not_true, Bool.or_false,
        Bool.false_eq_true, if_false]
      rw [hrun, h22]
    · intro j hj
      have hj2 := hidx j hj
      rw [h22, Nat.zero_add] at hj2
      exact hj2
  · intro pre out post ex houts hfresh hnodup hnotin hex
    have hfresh' : ∀ o ∈ pre,
        lookupAssoc (c.addNodeScopedStart ctor).1.resolvers o.type = none := by
      intro o ho
      rw [h1]
      exact hfresh o ho
    have hex' : lookupAssoc (c.addNodeScopedStart ctor).1.resolvers out.type = some ex := by
      rw [h1]
      exact hex
    obtain ⟨c', hrun⟩ := addScopedOutputs_err pre (c.addNodeScopedStart ctor).1
      (c.addNodeScopedStart ctor).2.1 ctor.Location (c.addNodeScopedStart ctor).2.2 0
      out post ex hfresh' hnodup hnotin hex'
    refine ⟨c', ?_⟩
    simp only [container.addNode, hscope, Option.isSome_none, Bool.not_true, Bool.or_false,
      Bool.false_eq_true, if_false]
    rw [houts, hrun]

/-- A scoped provider: declares a scope input, outputs R. -/
def exScopedProv : ProviderDescriptor :=
  { Location := ⟨"scopedProv", "scopedProv (main.go:11)"⟩, Inputs := [⟨scopeType, false⟩]
    Outputs := [⟨exTyR⟩], Fn := fun _ => .ok [.prim exTyR 9] }

theorem C4_witness :
    (∃ c', container.addNode newContainer exScopedProv none =
      (c', .ok (.scopeDepP newContainer.scopeDepNodes.length))) ∧
    (∃ c', container.addNode exSupplyCont exScopedProv none =
      (c', .error (.duplicateProvisionScoped exTyR exScopedProv.Location
        ((resolver.supply exTyR (.prim exTyR 7) exSupplyLoc).describeLocation
          (exSupplyCont.addNodeScopedStart exScopedProv).1)))) := by
  constructor
  · obtain ⟨c', h, _⟩ := (C4_scoped_provider_registration newContainer exScopedProv rfl).1
      (fun o _ => rfl) (by decide)
    exact ⟨c', h⟩
  · exact (C4_scoped_provider_registration exSupplyCont exScopedProv rfl).2 [] ⟨exTyR⟩ []
      (.supply exTyR (.prim exTyR 7) exSupplyLoc) rfl
      (fun o ho => absurd ho (List.not_mem_nil o)) (by simp) (by simp) rfl

theorem addSimpleOutputs_append :
    ∀ (xs ys : List ProviderOutput) (c : container) (ctorNode : graphNodeKey) (nid i : Nat),
      c.addSimpleOutputs ctorNode nid i (xs ++ ys) =
        (match c.addSimpleOutputs ctorNode nid i xs with
         | (c1, .ok _) => c1.addSimpleOutputs ctorNode nid (i + xs.length) ys
         | (c1, .error e) => (c1, .error e)) := by
  intro xs
  induction xs with
  | nil =>
    intro ys c ctorNode nid i
    simp [container.addSimpleOutputs]
  | cons x xs ih =>
    intro ys c ctorNode nid i
    simp only [List.cons_append, container.addSimpleOutputs]
    cases hstep : c.addSimpleOutput ctorNode nid i x with
    | mk c1 r =>
      cases r with
      | error e => rfl
      | ok u =>
        dsimp only
        have hx : xs.append ys = xs ++ ys := rfl
        rw [hx, ih]
        cases hrest : c1.addSimpleOutputs ctorNode nid (i + 1) xs with
        | mk c2 r2 =>
          cases r2 with
          | error e => rfl
          | ok u2 =>
            dsimp only
            have harith : i + 1 + xs.length = i + (x :: xs).length := by
              simp only [List.length_cons]
              omega
            rw [harith]

/-- C5: in a non-scoped registration, an output whose type is a map from
string to a one-per-scope type X is rejected at the forbidden-return check:
the per-output step fails with the "cannot be used as a return type" error
and leaves the container (in particular, the resolver registry) completely
unchanged; consequently, when the registration's output loop reaches such an
output, the whole registration fails with that error and installs nothing
for that output. -/
theorem C5_forbidden_map_return :
    (∀ (c : container) (ctorNode : graphNodeKey) (nid i : Nat) (out : ProviderOutput)
      (X : TypeKey), out.type = .mapT stringType X → isOnePerScopeType X = true →
      c.addSimpleOutput ctorNode nid i out =
        (c, .error (.onePerScopeMapReturn out.type out.type.elem))) ∧
    (∀ (c : container) (ctor : ProviderDescriptor) (scope : Option Scope)
      (pre : List ProviderOutput) (out : ProviderOutput) (post : List ProviderOutput)
      (X : TypeKey) (c1 : container),
      (scope.isSome || !(hasScopeParam ctor)) = true →
      ctor.Outputs = pre ++ out :: post →
      out.type = .mapT stringType X → isOnePerScopeType X = true →
      (c.addNodeSimpleStart ctor scope).1.addSimpleOutputs
        (graphNodeKey.loc ctor.Location scope) c.simpleNodes.length 0 pre = (c1, .ok ()) →
      container.addNode c ctor scope =
        (c1, .error (.onePerScopeMapReturn out.type out.type.elem))) := by
  have hstep : ∀ (c : container) (ctorNode : graphNodeKey) (nid i : Nat)
      (out : ProviderOutput) (X : TypeKey),
      out.type = .mapT stringType X → isOnePerScopeType X = true →
      c.addSimpleOutput ctorNode nid i out =
        (c, .error (.onePerScopeMapReturn out.type out.type.elem)) := by
    intro c ctorNode nid i out X hty hX
    have hforb : isForbiddenMapReturn out.type = true := by
      rw [hty]
      simp [isForbiddenMapReturn, hX, stringType]
    simp only [container.addSimpleOutput, hforb, if_true]
  refine ⟨hstep, ?_⟩
  intro c ctor scope pre out post X c1 hns houts hty hX hloop
  obtain ⟨g, hst⟩ := addNodeSimpleStart_spec c ctor scope
  have h21 : (c.addNodeSimpleStart ctor scope).2.1 = graphNodeKey.loc ctor.Location scope := by
    rw [hst]
  have h22 : (c.addNodeSimpleStart ctor scope).2.2 = c.simpleNodes.length := by rw [hst]
  simp only [container.addNode, hns, if_true]
  rw [h21, h22, houts, addSimpleOutputs_append, hloop]
  dsimp only
  rw [Nat.zero_add]
  simp only [container.addSimpleOutputs]
  rw [hstep c1 (graphNodeKey.loc ctor.Location scope) c.simpleNodes.length pre.length out X
    hty hX]

/-- A one-per-scope marked type Y. -/
def exTyY : TypeKey := TypeKey.base "Y" false true

/-- A provider illegally returning map[string]Y for one-per-scope Y. -/
def exMapProv : ProviderDescriptor :=
  { Location := ⟨"mapProv", "mapProv (main.go:13)"⟩, Inputs := []
    Outputs := [⟨.mapT stringType exTyY⟩], Fn := fun _ => .ok [] }

theorem C5_witness :
    container.addNode newContainer exMapProv none =
      ((newContainer.addNodeSimpleStart exMapProv none).1,
        .error (.onePerScopeMapReturn (.mapT stringType exTyY) exTyY)) :=
  C5_forbidden_map_return.2 newContainer exMapProv none [] ⟨.mapT stringType exTyY⟩ []
    exTyY (newContainer.addNodeSimpleStart exMapProv none).1 rfl rfl rfl rfl rfl

theorem autoGroup_ne_slice (T : TypeKey) (h : isAutoGroupType T = true) :
    T ≠ TypeKey.sliceT T := by
  cases T <;> simp_all [isAutoGroupType]

/-- C6: in the non-scoped registration output step, an output whose type is
a slice of an auto-group element type is unwrapped to the element type; and
when the (possibly unwrapped) type T is an auto-group type with no existing
resolver, the step succeeds and installs a group resolver (holding this
provider node and output index) under key T together with the slice-view
resolver under key SliceOf(T); when such an output is the last output of a
registration whose earlier outputs processed successfully, the whole
registration succeeds with those two resolvers installed. -/
theorem C6_auto_group_install :
    (∀ (c : container) (ctorNode : graphNodeKey) (nid i : Nat) (out : ProviderOutput)
      (T : TypeKey),
      unwrapSliceOfAutoGroup out.type = T → isAutoGroupType T = true →
      lookupAssoc c.resolvers T = none →
      ∃ c', c.addSimpleOutput ctorNode nid i out = (c', .ok ()) ∧
        lookupAssoc c'.resolvers T = some (.group T (.sliceT T) [(nid, i)]) ∧
        lookupAssoc c'.resolvers (.sliceT T) = some (.sliceGroup T)) ∧
    (∀ (c : container) (ctor : ProviderDescriptor) (scope : Option Scope)
      (pre : List ProviderOutput) (out : ProviderOutput) (T : TypeKey) (c1 : container),
      (scope.isSome || !(hasScopeParam ctor)) = true →
      ctor.Outputs = pre ++ [out] →
      unwrapSliceOfAutoGroup out.type = T → isAutoGroupType T = true →
      (c.addNodeSimpleStart ctor scope).1.addSimpleOutputs
        (graphNodeKey.loc ctor.Location scope) c.simpleNodes.length 0 pre = (c1, .ok ()) →
      lookupAssoc c1.resolvers T = none →
      ∃ c', container.addNode c ctor scope = (c', .ok (.simpleP c.simpleNodes.length)) ∧
        lookupAssoc c'.resolvers T =
          some (.group T (.sliceT T) [(c.simpleNodes.length, pre.length)]) ∧
        lookupAssoc c'.resolvers (.sliceT T) = some (.sliceGroup T)) := by
  have hstep : ∀ (c : container) (ctorNode : graphNodeKey) (nid i : Nat)
      (out : ProviderOutput) (T : TypeKey),
      unwrapSliceOfAutoGroup out.type = T → isAutoGroupType T = true →
      lookupAssoc c.resolvers T = none →
      ∃ c', c.addSimpleOutput ctorNode nid i out = (c', .ok ()) ∧
        lookupAssoc c'.resolvers T = some (.group T (.sliceT T) [(nid, i)]) ∧
        lookupAssoc c'.resolvers (.sliceT T) = some (.sliceGroup T) := by
    intro c ctorNode nid i out T hunwrap hauto hlk
    have hforb : isForbiddenMapReturn out.type = false := by
      cases hsh : out.type with
      | mapT k e =>
        rw [hsh] at hunwrap
        simp only [unwrapSliceOfAutoGroup] at hunwrap
        rw [← hunwrap] at hauto
        simp [isAutoGroupType] at hauto
      | base n a o => rfl
      | scopeT => rfl
      | stringT => rfl
      | sliceT e => rfl
    have hrun : c.addSimpleOutput ctorNode nid i out =
        (container.addGraphEdge
          { (c.typeGraphNode (TypeKey.sliceT T)).1 with
            resolvers := (setAssoc (setAssoc ((c.typeGraphNode (TypeKey.sliceT T)).1).resolvers T
              (.group T (TypeKey.sliceT T) [(nid, i)])) (TypeKey.sliceT T) (.sliceGroup T)) }
          ctorNode (.typ (TypeKey.sliceT T)), .ok ()) := by
      simp only [container.addSimpleOutput, hforb, Bool.false_eq_true, if_false, hunwrap,
        hlk, hauto, if_true]
    refine ⟨_, hrun, ?_, ?_⟩
    · show lookupAssoc (setAssoc (setAssoc c.resolvers T (.group T (.sliceT T) [(nid, i)]))
        (TypeKey.sliceT T) (.sliceGroup T)) T = some (.group T (.sliceT T) [(nid, i)])
      rw [lookupAssoc_set_ne _ _ _ _ (fun h => (autoGroup_ne_slice T hauto) h)]
      exact lookupAssoc_set_self _ _ _
    · show lookupAssoc (setAssoc (setAssoc c.resolvers T (.group T (.sliceT T) [(nid, i)]))
        (TypeKey.sliceT T) (.sliceGroup T)) (TypeKey.sliceT T) = some (.sliceGroup T)
      exact lookupAssoc_set_self _ _ _
  refine ⟨hstep, ?_⟩
  intro c ctor scope pre out T c1 hns houts hunwrap hauto hloop hlk
  obtain ⟨g, hst⟩ := addNodeSimpleStart_spec c ctor scope
  have h21 : (c.addNodeSimpleStart ctor scope).2.1 = graphNodeKey.loc ctor.Location scope := by
    rw [hst]
  have h22 : (c.addNodeSimpleStart ctor scope).2.2 = c.simpleNodes.length := by rw [hst]
  obtain ⟨c', hsteprun, hgT, hgS⟩ := hstep c1 (graphNodeKey.loc ctor.Location scope)
    c.simpleNodes.length pre.length out T hunwrap hauto hlk
  refine ⟨c', ?_, hgT, hgS⟩
  simp only [container.addNode, hns, if_true]
  rw [h21, h22, houts, addSimpleOutputs_append, hloop]
  dsimp only
  rw [Nat.zero_add]
  simp only [container.addSimpleOutputs]
  rw [hsteprun]

/-- An auto-group marked type G. -/
def exTyG : TypeKey := TypeKey.base "G" true false

/-- A provider returning a slice of the auto-group type G in bulk. -/
def exGroupProv : ProviderDescriptor :=
  { Location := ⟨"groupProv", "groupProv (main.go:15)"⟩, Inputs := []
    Outputs := [⟨.sliceT exTyG⟩], Fn := fun _ => .ok [.sliceV exTyG [.prim exTyG 3]] }

theorem C6_witness :
    ∃ c', container.addNode newContainer exGroupProv none = (c', .ok (.simpleP 0)) ∧
      lookupAssoc c'.resolvers exTyG = some (.group exTyG (.sliceT exTyG) [(0, 0)]) ∧
      lookupAssoc c'.resolvers (.sliceT exTyG) = some (.sliceGroup exTyG) :=
  C6_auto_group_install.2 newContainer exGroupProv none [] ⟨.sliceT exTyG⟩ exTyG
    (newContainer.addNodeSimpleStart exGroupProv none).1 rfl rfl rfl rfl rfl rfl
